import Mathlib

/-!
Verification development for the NCAA field-hockey roster scraper
(src/fhockey_roster_scraper.py and src/enhance_roster_data.py).

The Python code is shallowly embedded: pure text-normalization helpers
become Lean functions on `String`/`List Char`; the BeautifulSoup "parsed
page" object is modelled as explicit structures carrying exactly the
pieces of markup the extractors query; network transport (requests /
cloudscraper) and the tldextract library are external collaborators and
are modelled as oracle functions supplied to the scraper.

Character classes follow the ASCII behaviour of the Python regexes
(\s, \d, \w, str.strip, str.lower/upper); the data processed by the
scraper is ASCII western text, and all concrete inputs in the theorems
below are ASCII.
-/

namespace FHockey

/-- Apostrophe character (ASCII 39), used by the height regex. -/
def apos : Char := Char.ofNat 39

/-- Python `\s` / `str.strip` whitespace (ASCII part):
space, tab, newline, carriage return, form feed, vertical tab. -/
def isWS (c : Char) : Bool :=
  c = ' ' || c = '\t' || c = '\n' || c = '\r' || c = Char.ofNat 12 || c = Char.ofNat 11

/-- Python `\w` word character (ASCII part): alphanumeric or underscore. -/
def isWordChar (c : Char) : Bool := c.isAlphanum || c = '_'

/-- Drop leading whitespace (left part of Python `str.strip`). -/
def lstripL (l : List Char) : List Char := l.dropWhile isWS

/-- Drop trailing whitespace (right part of Python `str.strip`). -/
def rstripL : List Char → List Char
  | [] => []
  | c :: cs =>
    match rstripL cs with
    | [] => if isWS c then [] else [c]
    | d :: ds => c :: d :: ds

/-- Python `str.strip()` on a character list. -/
def stripL (l : List Char) : List Char := rstripL (lstripL l)

/-- Python `str.strip()`. -/
def strip (s : String) : String := ⟨stripL s.data⟩

/-- Python `str.rstrip('/')`: drop all trailing slashes. -/
def rstripSlash (s : String) : String := ⟨(s.data.reverse.dropWhile (· = '/')).reverse⟩

/-- ASCII lower-casing, Python `str.lower()` on the scraper's label text. -/
def toLowerStr (s : String) : String := ⟨s.data.map Char.toLower⟩

/-- ASCII upper-casing, Python `str.upper()`. -/
def toUpperStr (s : String) : String := ⟨s.data.map Char.toUpper⟩

/-- Whether `needle` occurs as a contiguous sublist of `hay` —
Python's `needle in hay` substring test. -/
def containsSub (needle : List Char) : List Char → Bool
  | [] => needle.isPrefixOf []
  | c :: rest => needle.isPrefixOf (c :: rest) || containsSub needle rest

/-- Python substring containment `sub in s`. -/
def containsS (s sub : String) : Bool := containsSub sub.data s.data

/-- Collapse every whitespace run to a single space:
the `re.sub(r'\s+', ' ', text)` step of `FieldExtractors.clean_text`.
The boolean flag records whether the previous character was whitespace
(i.e. whether we are inside a run that already emitted its space). -/
def collapseWS : Bool → List Char → List Char
  | _, [] => []
  | prevWS, c :: cs =>
    if isWS c then
      if prevWS then collapseWS true cs else ' ' :: collapseWS true cs
    else
      c :: collapseWS false cs

/-- `FieldExtractors.clean_text`: empty input maps to empty output; otherwise
whitespace runs (including newlines) collapse to one space and the result
is stripped. -/
def clean_text (s : String) : String :=
  if s = "" then "" else ⟨stripL (collapseWS false s.data)⟩

/-- `FieldExtractors.normalize_academic_year`'s lookup table (`year_map`). -/
def year_map : List (String × String) :=
  [("Fr", "Freshman"), ("Fr.", "Freshman"), ("FR", "Freshman"),
   ("So", "Sophomore"), ("So.", "Sophomore"), ("SO", "Sophomore"),
   ("Jr", "Junior"), ("Jr.", "Junior"), ("JR", "Junior"),
   ("Sr", "Senior"), ("Sr.", "Senior"), ("SR", "Senior"),
   ("Gr", "Graduate"), ("Gr.", "Graduate"), ("GR", "Graduate"),
   ("R-Fr", "Redshirt Freshman"), ("R-Fr.", "Redshirt Freshman"),
   ("R-So", "Redshirt Sophomore"), ("R-So.", "Redshirt Sophomore"),
   ("R-Jr", "Redshirt Junior"), ("R-Jr.", "Redshirt Junior"),
   ("R-Sr", "Redshirt Senior"), ("R-Sr.", "Redshirt Senior"),
   ("1st", "Freshman"), ("First", "Freshman"),
   ("2nd", "Sophomore"), ("Second", "Sophomore"),
   ("3rd", "Junior"), ("Third", "Junior"),
   ("4th", "Senior"), ("Fourth", "Senior"),
   ("5th", "Graduate"), ("Fifth", "Graduate")]

/-- `FieldExtractors.normalize_academic_year`: exact lookup in `year_map`,
unmatched input passed through unchanged, empty input maps to empty. -/
def normalize_academic_year (yearText : String) : String :=
  if yearText = "" then "" else (year_map.lookup yearText).getD yearText

/-!  `FieldExtractors.extract_hometown_parts` embeds the regex
`re.match(r'([^/]+?)\s*/\s*(.+)', text)`.  Because `[^/]+?` cannot cross a
slash, the match (if any) splits at the *first* `/` of the text; it
requires at least one character before that slash.  After the slash,
`\s*(.+)` consumes greedy whitespace and then at least one non-newline
character, backtracking the whitespace run if it reaches the end of the
string; the group therefore exists iff the suffix contains some character
other than a newline. -/

/-- The `\s*(.+)` tail of the hometown regex, applied to the text after the
first slash: try the longest whitespace prefix first, backtracking while
`(.+)` (one or more non-newline characters) cannot match. -/
def wsThenLine : Nat → List Char → Option (List Char)
  | 0, rest =>
    match (rest.drop 0).takeWhile (· ≠ '\n') with
    | [] => none
    | c :: g => some (c :: g)
  | k + 1, rest =>
    match (rest.drop (k + 1)).takeWhile (· ≠ '\n') with
    | [] => wsThenLine k rest
    | c :: g => some (c :: g)

/-- `FieldExtractors.extract_hometown_parts`: split a combined
"hometown / high school" string into its two stripped components; when the
regex does not match, return `(text.strip(), '')`. -/
def extract_hometown_parts (hometownText : String) : String × String :=
  if hometownText = "" then ("", "")
  else
    match hometownText.data.findIdx? (· = '/') with
    | none => (strip hometownText, "")
    | some i =>
      if i = 0 then (strip hometownText, "")
      else
        match wsThenLine ((hometownText.data.drop (i + 1)).takeWhile isWS).length
                (hometownText.data.drop (i + 1)) with
        | none => (strip hometownText, "")
        | some g => (⟨stripL (hometownText.data.take i)⟩, ⟨stripL g⟩)

/-!  `FieldExtractors.extract_position`.  The first step is
`re.search(r'\b(GK|G|GOALKEEPER|...)\b', text, re.IGNORECASE)`: scan the
text left to right; at every position that starts on a word boundary, try
the alternatives in the regex's order, accepting the first one that is a
case-insensitive prefix followed by a word boundary.  Matching is done on
the upper-cased text (all alternatives are upper-case and `\w`-membership
is case-invariant). -/

/-- The alternatives of the position regex, in the regex's order. -/
def posTokens : List String :=
  ["GK", "G", "GOALKEEPER", "GOALIE",
   "D", "DEF", "DEFENSE", "DEFENDER", "B", "BACK",
   "M", "MF", "MID", "MIDFIELDER", "MIDFIELD",
   "F", "FW", "FOR", "FORWARD", "A", "ATT", "ATTACK", "ATTACKER", "O", "OFFENSE"]

/-- Try each alternative at the current position: it must be a prefix of the
remaining (upper-cased) text and be followed by a word boundary. -/
def findTokenIn : List String → List Char → Option String
  | [], _ => none
  | t :: ts, u =>
    if t.data.isPrefixOf u &&
       (match u.drop t.data.length with
        | [] => true
        | c :: _ => !isWordChar c) then
      some t
    else findTokenIn ts u

/-- Scan for the first position where some alternative matches; the flag
carries whether the previous character is a word character (the leading
`\b` requires it not to be, since every alternative starts with a letter). -/
def searchToken (prevWord : Bool) : List Char → Option String
  | [] => none
  | c :: rest =>
    match (if prevWord then none else findTokenIn posTokens (c :: rest)) with
    | some t => some t
    | none => searchToken (isWordChar c) rest

/-- The `if pos in (...)` normalization chain of `extract_position`
(the trailing `return pos` of the Python code is kept as the final
fall-through). -/
def normalizePosToken (pos : String) : String :=
  if pos = "GK" || pos = "G" || pos = "GOALKEEPER" || pos = "GOALIE" then "GK"
  else if pos = "DEF" || pos = "D" || pos = "DEFENSE" || pos = "DEFENDER" ||
          pos = "B" || pos = "BACK" then "D"
  else if pos = "MID" || pos = "MF" || pos = "MIDFIELDER" || pos = "MIDFIELD" then "M"
  else if pos = "FOR" || pos = "FW" || pos = "F" || pos = "FORWARD" || pos = "A" ||
          pos = "ATT" || pos = "ATTACK" || pos = "ATTACKER" || pos = "O" ||
          pos = "OFFENSE" then "F"
  else pos

/-- The full-word substring fallback of `extract_position`, applied to the
upper-cased stripped text. -/
def posFallback (up : String) : String :=
  if containsS up "GOALKEEPER" || containsS up "GOALIE" || containsS up "KEEPER" then "GK"
  else if containsS up "DEFENSE" || containsS up "DEFENDER" || containsS up "BACK" then "D"
  else if containsS up "MIDFIELDER" || containsS up "MIDFIELD" then "M"
  else if containsS up "FORWARD" || containsS up "ATTACK" || containsS up "OFFENSE" then "F"
  else ""

/-- `FieldExtractors.extract_position`: word-boundary token match first,
then substring search over full position words, else empty. -/
def extract_position (text : String) : String :=
  if text = "" then ""
  else
    match searchToken false ((strip text).data.map Char.toUpper) with
    | some pos => normalizePosToken pos
    | none => posFallback (toUpperStr (strip text))

/-!  `FieldExtractors.extract_height` embeds `re.search` over the pattern
list of the Python code.  Each pattern is implemented as a matcher at one
position; `reSearch` scans positions left to right and takes the first
match.  Greedy pieces (`\d+`, `\s*`, `{1,2}`) are deterministic here
because each is followed by a piece that cannot consume its characters,
except where a bounded backtrack is written out explicitly. -/

/-- Scan positions left to right, returning the first position's match. -/
def reSearch (m : List Char → Option (List Char)) : List Char → Option (List Char)
  | [] => m []
  | c :: cs =>
    match m (c :: cs) with
    | some g => some g
    | none => reSearch m cs

/-- Quote characters accepted by `["″']{1,2}` in the height regex. -/
def isHQuote (c : Char) : Bool := c = '"' || c = '″' || c = apos

/-- The optional metric tail `(?:\s*/\s*\d+\.\d+m)` of the height regex:
matches all-or-nothing, returning the consumed characters. -/
def matchMetricTail (cs : List Char) : Option (List Char) :=
  let (w1, r1) := cs.span isWS
  match r1 with
  | '/' :: r2 =>
    let (w2, r3) := r2.span isWS
    let (d1, r4) := r3.span Char.isDigit
    if d1.isEmpty then none
    else
      match r4 with
      | '.' :: r5 =>
        let (d2, r6) := r5.span Char.isDigit
        if d2.isEmpty then none
        else
          match r6 with
          | 'm' :: _ => some (w1 ++ '/' :: (w2 ++ d1 ++ '.' :: (d2 ++ ['m'])))
          | _ => none
      | _ => none
  | _ => none

/-- Imperial height at one position: `\d+['′]\s*\d+["″']{1,2}` with an
optional metric tail when `withTail` is set (patterns 1 and 2 of
`extract_height`). -/
def matchImperial (withTail : Bool) (cs : List Char) : Option (List Char) :=
  let (d1, r1) := cs.span Char.isDigit
  if d1.isEmpty then none
  else
    match r1 with
    | q :: r2 =>
      if q = apos || q = '′' then
        let (ws, r3) := r2.span isWS
        let (d2, r4) := r3.span Char.isDigit
        if d2.isEmpty then none
        else
          match r4 with
          | a :: r5 =>
            if isHQuote a then
              let (qs, r6) :=
                match r5 with
                | b :: r6' => if isHQuote b then ([a, b], r6') else ([a], r5)
                | [] => ([a], ([] : List Char))
              let core := d1 ++ q :: (ws ++ d2 ++ qs)
              if withTail then
                match matchMetricTail r6 with
                | some tail => some (core ++ tail)
                | none => some core
              else some core
            else none
          | [] => none
      else none
    | [] => none

/-- Dash height `\d+-\d+` at one position (pattern 3). -/
def matchDashHeight (cs : List Char) : Option (List Char) :=
  let (d1, r1) := cs.span Char.isDigit
  if d1.isEmpty then none
  else
    match r1 with
    | '-' :: r2 =>
      let (d2, _) := r2.span Char.isDigit
      if d2.isEmpty then none else some (d1 ++ '-' :: d2)
    | _ => none

/-- Metric height `\d+\.\d+m` at one position (pattern 4). -/
def matchMetricHeight (cs : List Char) : Option (List Char) :=
  let (d1, r1) := cs.span Char.isDigit
  if d1.isEmpty then none
  else
    match r1 with
    | '.' :: r2 =>
      let (d2, r3) := r2.span Char.isDigit
      if d2.isEmpty then none
      else
        match r3 with
        | 'm' :: _ => some (d1 ++ '.' :: (d2 ++ ['m']))
        | _ => none
    | _ => none

/-- The `\s*([^\,\n]+)` tail of the labelled patterns: greedy whitespace
first, backtracking the run while the group (one or more characters that
are neither comma nor newline) would be empty. -/
def wsThenNoCommaLine : Nat → List Char → Option (List Char)
  | k, rest =>
    match (rest.drop k).takeWhile (fun c => !(c = ',' || c = '\n')) with
    | [] =>
      match k with
      | 0 => none
      | k' + 1 => wsThenNoCommaLine k' rest
    | c :: g => some (c :: g)

/-- Labelled height `Height:\s*([^\,\n]+)` at one position (pattern 5). -/
def matchHeightLabel (cs : List Char) : Option (List Char) :=
  if ("Height:".data).isPrefixOf cs then
    let rest := cs.drop 7
    wsThenNoCommaLine (rest.takeWhile isWS).length rest
  else none

/-- `FieldExtractors.extract_height`: try the five patterns in order over
the whole text; the first pattern with a match anywhere wins, and its
group is stripped. -/
def extract_height (text : String) : String :=
  if text = "" then ""
  else
    let cs := text.data
    match reSearch (matchImperial true) cs with
    | some g => ⟨stripL g⟩
    | none =>
      match reSearch (matchImperial false) cs with
      | some g => ⟨stripL g⟩
      | none =>
        match reSearch matchDashHeight cs with
        | some g => ⟨stripL g⟩
        | none =>
          match reSearch matchMetricHeight cs with
          | some g => ⟨stripL g⟩
          | none =>
            match reSearch matchHeightLabel cs with
            | some g => ⟨stripL g⟩
            | none => ""

/-!  `FieldExtractors.extract_jersey_number`: five patterns tried in order.
Patterns needing the character before the match (the `\b` of pattern 4)
are scanned with `reSearchPrev`, which carries the previous character's
word-ness. -/

/-- Scan carrying whether the previous character is a word character. -/
def reSearchPrev (m : Bool → List Char → Option (List Char)) :
    Bool → List Char → Option (List Char)
  | prevW, [] => m prevW []
  | prevW, c :: cs =>
    match m prevW (c :: cs) with
    | some g => some g
    | none => reSearchPrev m (isWordChar c) cs

/-- `Jersey Number[:\s]+(\d+)` at one position (pattern 1). -/
def matchJerseyLabel (cs : List Char) : Option (List Char) :=
  if ("Jersey Number".data).isPrefixOf cs then
    let rest := cs.drop 13
    let (sep, r1) := rest.span (fun c => c = ':' || isWS c)
    if sep.isEmpty then none
    else
      let (d, _) := r1.span Char.isDigit
      if d.isEmpty then none else some d
  else none

/-- One or two digits followed by a word boundary: greedy two digits first,
backtracking to one (the `(\d{1,2})\b` piece of patterns 2 and 3). -/
def twoDigitsBoundary : List Char → Option (List Char)
  | a :: b :: c :: _ =>
    if a.isDigit && b.isDigit && !isWordChar c then some [a, b]
    else if a.isDigit && !isWordChar b then some [a]
    else none
  | a :: b :: [] =>
    if a.isDigit && b.isDigit then some [a, b]
    else if a.isDigit && !isWordChar b then some [a]
    else none
  | a :: [] => if a.isDigit then some [a] else none
  | [] => none

/-- `#(\d{1,2})\b` at one position (pattern 2). -/
def matchHashJersey (cs : List Char) : Option (List Char) :=
  match cs with
  | '#' :: rest => twoDigitsBoundary rest
  | _ => none

/-- `No\.?[:\s]*(\d{1,2})\b` at one position (pattern 3): the optional dot
is tried greedily, falling back to the dot-less parse. -/
def matchNoJersey (cs : List Char) : Option (List Char) :=
  match cs with
  | 'N' :: 'o' :: rest =>
    let tail := fun (r : List Char) =>
      let (_, r1) := r.span (fun c => c = ':' || isWS c)
      twoDigitsBoundary r1
    (match rest with
     | '.' :: r2 =>
       match tail r2 with
       | some g => some g
       | none => tail rest
     | _ => tail rest)
  | _ => none

/-- `\b(\d{1,2})\s+(?=[A-Z])` at one position (pattern 4): one or two
digits preceded by a word boundary, then whitespace, then an upper-case
letter lookahead. -/
def matchDigitsBeforeCap (prevW : Bool) (cs : List Char) : Option (List Char) :=
  if prevW then none
  else
    let d := cs.takeWhile Char.isDigit
    let tryLen := fun (n : Nat) =>
      let g := cs.take n
      let rest := cs.drop n
      let (ws, r2) := rest.span isWS
      if ws.isEmpty then none
      else
        match r2 with
        | c :: _ => if 'A' ≤ c && c ≤ 'Z' then some g else none
        | [] => none
    if d.length ≥ 2 then
      match tryLen 2 with
      | some g => some g
      | none => if d.length = 2 then tryLen 1 else none
    else if d.length = 1 then tryLen 1
    else none

/-- `^\s*(\d{1,2})\s*$`: the whole text is optional whitespace, one or two
digits, optional whitespace (pattern 5). -/
def matchBareNumber (cs : List Char) : Option (List Char) :=
  let r1 := cs.dropWhile isWS
  let (d, r2) := r1.span Char.isDigit
  if (d.length = 1 || d.length = 2) && (r2.dropWhile isWS).isEmpty then some d
  else none

/-- `FieldExtractors.extract_jersey_number`. -/
def extract_jersey_number (text : String) : String :=
  if text = "" then ""
  else
    let cs := text.data
    match reSearch matchJerseyLabel cs with
    | some g => ⟨g⟩
    | none =>
      match reSearch matchHashJersey cs with
      | some g => ⟨g⟩
      | none =>
        match reSearch matchNoJersey cs with
        | some g => ⟨g⟩
        | none =>
          match reSearchPrev matchDigitsBeforeCap false cs with
          | some g => ⟨g⟩
          | none =>
            match matchBareNumber cs with
            | some g => ⟨g⟩
            | none => ""

/-- Python `a or b` on strings: `b` when `a` is empty (falsy). -/
def orElseStr (a b : String) : String := if a = "" then b else a

/-- `SeasonVerifier.verify_season_on_page`: the season string, or the range
"{season-1}-{last two digits of season+1}", must occur in the page text.
`String.toInt?` stands in for Python `int(...)` (which raises `ValueError`
on non-numeric input — the `except` arm). -/
def verify_season_on_page (pageText season : String) : Bool :=
  if containsS pageText season then true
  else
    match season.toInt? with
    | some year =>
      let prevYear := toString (year - 1)
      let nextYear : String := ⟨((toString (year + 1)).data.reverse.take 2).reverse⟩
      containsS pageText (prevYear ++ "-" ++ nextYear)
    | none => false

/-- `URLBuilder.build_roster_url`: every format branch (default, fhockey,
unknown-with-warning) currently produces `{base}/roster/{season}` after
stripping trailing slashes. -/
def build_roster_url (baseUrl season urlFormat : String) : String :=
  let b := rstripSlash baseUrl
  if urlFormat = "default" then b ++ "/roster/" ++ season
  else if urlFormat = "fhockey" then b ++ "/roster/" ++ season
  else b ++ "/roster/" ++ season

/-- `TeamConfig.get_url_format`: the explicit per-team table
(`TEAM_CONFIGS`: 312 Iowa, 519 Ohio → 'fhockey') takes precedence, then
substring auto-detection on the team URL, then 'default'. -/
def get_url_format (teamId : Int) (teamUrl : String) : String :=
  if teamId = 312 || teamId = 519 then "fhockey"
  else if teamUrl ≠ "" then
    if containsS teamUrl "/sports/fhockey" then "fhockey"
    else if containsS teamUrl "/sports/field-hockey" then "default"
    else "default"
  else "default"

/-!  Data model.  `Player` is the record dataclass; the page structures
carry exactly the markup pieces the extractors query from BeautifulSoup. -/

/-- The `Player` dataclass: one player-season record. -/
structure Player where
  teamId : Int
  team : String
  season : String
  division : String := ""
  playerId : Option String := none
  name : String := ""
  jersey : String := ""
  position : String := ""
  height : String := ""
  year : String := ""
  major : String := ""
  hometown : String := ""
  highSchool : String := ""
  previousSchool : String := ""
  url : String := ""
deriving Repr, DecidableEq

/-- One `div.sidearm-roster-player-bio-item`: its label and value spans,
each possibly absent. -/
structure BioItem where
  label : Option String := none
  value : Option String := none
deriving Repr, DecidableEq

/-- A table cell (`th`/`td`): its text, and its first `a[href]` link as a
(text, href) pair when present. -/
structure Cell where
  text : String := ""
  link : Option (String × String) := none
deriving Repr, DecidableEq

/-- A table row (`tr`) as its list of `th`/`td` cells. -/
structure HRow where
  cells : List Cell := []
deriving Repr, DecidableEq

/-- A parsed player profile page: the pieces `_scrape_player_profile`
looks up — the bio `div`, the bio `dl` (its `dt` and `dd` texts), and all
`table.sidearm-table` elements. -/
structure ProfilePage where
  bioDiv : Option (List BioItem) := none
  dl : Option (List String × List String) := none
  detailTables : List (List HRow) := []
deriving Repr

/-- The `h3`/`h2` name element of a roster item: its first `a[href]` link
as (text, href), and its own text. -/
structure NameElem where
  link : Option (String × String) := none
  text : String := ""
deriving Repr, DecidableEq

/-- One `div.sidearm-roster-player-custom-fields` metadata entry: its
label and value spans, each possibly absent. -/
structure MetaField where
  label : Option String := none
  value : Option String := none
deriving Repr, DecidableEq

/-- One `li.sidearm-roster-player` container. -/
structure RosterItem where
  jerseyText : Option String := none
  nameElem : Option NameElem := none
  metaFields : List MetaField := []
deriving Repr, DecidableEq

/-- A roster table: rows inside `thead`, rows inside `tbody`, and rows
sitting directly under the table element (in that document order). -/
structure HTable where
  thead : Option (List HRow) := none
  tbody : Option (List HRow) := none
  loose : List HRow := []
deriving Repr, DecidableEq

/-- A parsed roster page: the `li.sidearm-roster-player` containers, the
first `table.sidearm-table`, the first generic `table`, and the page's
full text (`get_text()`, used only by season verification). -/
structure Page where
  rosterItems : List RosterItem := []
  tableSidearm : Option HTable := none
  tableAny : Option HTable := none
  text : String := ""
deriving Repr

/-- External collaborators of `StandardScraper`: the transport session
(returning an HTTP status and the BeautifulSoup-parsed page), the
transport for player profile pages (`none` = non-200 or request error),
the `scrape_profiles` flag, and the tldextract-derived registrable domain
(`sub.domain.suffix`) of a base URL. -/
structure ScrapeEnv where
  fetch : String → Nat × Page
  profFetch : String → Option ProfilePage
  scrapeProfiles : Bool
  domainOf : String → String

/-!  The profile-page bio extraction of `StandardScraper._scrape_player_profile`:
three shapes (bio `div`, bio `dl`, detail tables) sharing a guarded
label→field update.  The bio-div and dl loops use identical update code in
the source; the detail-table loop uses a reduced label rule set. -/

/-- The guarded label→field update of the bio-div and dl loops of
`_scrape_player_profile` (every write checks the field is still empty). -/
def updateBio (p : Player) (label value : String) : Player :=
  if containsS label "position" || containsS label "pos" then
    if p.position = "" then { p with position := extract_position value } else p
  else if containsS label "height" || containsS label "ht" then
    if p.height = "" then { p with height := orElseStr (extract_height value) value } else p
  else if containsS label "class" || containsS label "year" || containsS label "eligibility" then
    if p.year = "" then { p with year := normalize_academic_year value } else p
  else if containsS label "major" || containsS label "academic" then
    if p.major = "" then { p with major := value } else p
  else if containsS label "hometown" then
    if p.hometown = "" then
      if (extract_hometown_parts value).2 ≠ "" && p.highSchool = "" then
        { p with hometown := (extract_hometown_parts value).1,
                 highSchool := (extract_hometown_parts value).2 }
      else { p with hometown := (extract_hometown_parts value).1 }
    else p
  else if containsS label "high school" || containsS label "hs" then
    if p.highSchool = "" then { p with highSchool := value } else p
  else if containsS label "previous school" || containsS label "last school" ||
          containsS label "transfer" then
    if p.previousSchool = "" then { p with previousSchool := value } else p
  else p

/-- The guarded update of the detail-table loop of
`_scrape_player_profile` (reduced label aliases). -/
def updateBioTable (p : Player) (label value : String) : Player :=
  if containsS label "position" then
    if p.position = "" then { p with position := extract_position value } else p
  else if containsS label "height" then
    if p.height = "" then { p with height := orElseStr (extract_height value) value } else p
  else if containsS label "class" || containsS label "year" then
    if p.year = "" then { p with year := normalize_academic_year value } else p
  else if containsS label "major" then
    if p.major = "" then { p with major := value } else p
  else if containsS label "hometown" then
    if p.hometown = "" then
      if (extract_hometown_parts value).2 ≠ "" && p.highSchool = "" then
        { p with hometown := (extract_hometown_parts value).1,
                 highSchool := (extract_hometown_parts value).2 }
      else { p with hometown := (extract_hometown_parts value).1 }
    else p
  else if containsS label "high school" then
    if p.highSchool = "" then { p with highSchool := value } else p
  else if containsS label "previous school" then
    if p.previousSchool = "" then { p with previousSchool := value } else p
  else p

/-- Label/value preprocessing shared by every profile-shape loop: clean
and lower-case the label, clean the value, and skip values that are empty
or the literal "-". -/
def profileStep (upd : Player → String → String → Player)
    (p : Player) (rawLabel rawValue : String) : Player :=
  let label := toLowerStr (clean_text rawLabel)
  let value := clean_text rawValue
  if value = "" || value = "-" then p else upd p label value

/-- One bio item of the bio-div loop (skipped when label or value span is
missing). -/
def bioStep (p : Player) (it : BioItem) : Player :=
  match it.label, it.value with
  | some l, some v => profileStep updateBio p l v
  | _, _ => p

/-- One zipped dt/dd pair of the dl loop. -/
def dlStep (p : Player) (lv : String × String) : Player :=
  profileStep updateBio p lv.1 lv.2

/-- One row of a detail table (needs at least two cells). -/
def tableRowStep (p : Player) (row : HRow) : Player :=
  match row.cells with
  | c0 :: c1 :: _ => profileStep updateBioTable p c0.text c1.text
  | _ => p

/-- One detail table: all of its rows. -/
def tableStep (p : Player) (rows : List HRow) : Player :=
  rows.foldl tableRowStep p

/-- The bio-div pass of `_scrape_player_profile`. -/
def bioStage (page : ProfilePage) (p : Player) : Player :=
  match page.bioDiv with
  | some items => items.foldl bioStep p
  | none => p

/-- The dl pass of `_scrape_player_profile`. -/
def dlStage (page : ProfilePage) (p : Player) : Player :=
  match page.dl with
  | some dl => (dl.1.zip dl.2).foldl dlStep p
  | none => p

/-- The detail-table pass of `_scrape_player_profile`. -/
def tablesStage (page : ProfilePage) (p : Player) : Player :=
  page.detailTables.foldl tableStep p

/-- The body of `_scrape_player_profile` after a successful fetch: the
bio-div pass, then the dl pass, then the detail-table pass. -/
def scrapeProfileWith (page : ProfilePage) (p0 : Player) : Player :=
  tablesStage page (dlStage page (bioStage page p0))

/-- `StandardScraper._scrape_player_profile`: no URL or failed fetch
returns the player unchanged; otherwise the three profile shapes run. -/
def scrapePlayerProfile (env : ScrapeEnv) (p : Player) : Player :=
  if p.url = "" then p
  else
    match env.profFetch p.url with
    | none => p
    | some page => scrapeProfileWith page p

/-- Absolute profile URL from a relative href
(`f"https://{domain}{rel}"` with a slash inserted when missing). -/
def buildProfileUrl (domain rel : String) : String :=
  if rel.startsWith "http" then rel
  else if rel.startsWith "/" then "https://" ++ domain ++ rel
  else "https://" ++ domain ++ "/" ++ rel

/-- The local field accumulator of the `_extract_players` item loop
(the `position`/`year`/`hometown`/`high_school`/`height` locals). -/
structure ItemAcc where
  position : String := ""
  year : String := ""
  hometown : String := ""
  highSchool : String := ""
  height : String := ""
deriving Repr, DecidableEq

/-- One metadata field of the item-list shape (note: unlike the profile
shapes, this loop has no empty/"-" value skip and no emptiness guard on
the locals — a later field with a matching label overwrites). -/
def stepMeta (acc : ItemAcc) (mf : MetaField) : ItemAcc :=
  match mf.label, mf.value with
  | some l, some v =>
    let label := toLowerStr (clean_text l)
    let value := clean_text v
    if containsS label "position" || containsS label "pos" then
      { acc with position := extract_position value }
    else if containsS label "class" || containsS label "year" then
      { acc with year := normalize_academic_year value }
    else if containsS label "hometown" then
      if (extract_hometown_parts value).2 ≠ "" then
        { acc with hometown := (extract_hometown_parts value).1,
                   highSchool := (extract_hometown_parts value).2 }
      else { acc with hometown := (extract_hometown_parts value).1 }
    else if containsS label "high school" then
      { acc with highSchool := value }
    else if containsS label "height" then
      { acc with height := extract_height value }
    else acc
  | _, _ => acc

/-- One `li.sidearm-roster-player` container to a `Player` record,
followed by the optional profile-page pass. -/
def itemToPlayer (env : ScrapeEnv) (tid : Int)
    (team season division domain : String) (item : RosterItem) : Player :=
  let jersey :=
    match item.jerseyText with
    | some t => clean_text t
    | none => ""
  let np : String × String :=
    match item.nameElem with
    | some ne =>
      match ne.link with
      | some (ltext, href) => (clean_text ltext, buildProfileUrl domain href)
      | none => (clean_text ne.text, "")
    | none => ("", "")
  let acc := item.metaFields.foldl stepMeta {}
  let player : Player :=
    { teamId := tid, team := team, season := season, division := division,
      name := np.1, jersey := jersey, position := acc.position,
      height := acc.height, year := acc.year, hometown := acc.hometown,
      highSchool := acc.highSchool, url := np.2 }
  if env.scrapeProfiles && np.2 ≠ "" then scrapePlayerProfile env player else player

/-- All rows of a table in document order
(`table.find_all('tr')` when the table has no `tbody`). -/
def tableAllRows (t : HTable) : List HRow :=
  t.thead.getD [] ++ t.tbody.getD [] ++ t.loose

/-- `tbody = table.find('tbody') or table; rows = tbody.find_all('tr')`. -/
def tableBodyRows (t : HTable) : List HRow :=
  match t.tbody with
  | some rs => rs
  | none => t.thead.getD [] ++ t.loose

/-- Header cells: all `th`/`td` under `thead` when present, else the cells
of the first `tr` of the table; `none` when neither exists. -/
def tableHeaderCells (t : HTable) : Option (List Cell) :=
  match t.thead with
  | some rs => some ((rs.map HRow.cells).flatten)
  | none => (tableAllRows t).head?.map HRow.cells

/-- The column indices computed from the header texts by
`_extract_players_from_table` (Python `next((i for i, h ...), None)`). -/
structure ColIdx where
  nameIdx : Option Nat
  jerseyIdx : Option Nat
  posIdx : Option Nat
  yearIdx : Option Nat
  heightIdx : Option Nat
  hometownIdx : Option Nat
  hsIdx : Option Nat
deriving Repr, DecidableEq

/-- Header-text → column-index mapping of `_extract_players_from_table`. -/
def mkColIdx (headers : List String) : ColIdx :=
  { nameIdx := headers.findIdx? (fun h => containsS h "name"),
    jerseyIdx := headers.findIdx?
      (fun h => containsS h "#" || containsS h "number" || containsS h "jersey"),
    posIdx := headers.findIdx? (fun h => containsS h "pos"),
    yearIdx := headers.findIdx? (fun h => containsS h "year" || containsS h "class"),
    heightIdx := headers.findIdx? (fun h => containsS h "height" || containsS h "ht"),
    hometownIdx := headers.findIdx? (fun h => containsS h "hometown"),
    hsIdx := headers.findIdx? (fun h => containsS h "high school" || containsS h "hs") }

/-- `if idx is not None and idx < len(cols): cols[idx]`. -/
def getCell (cols : List Cell) : Option Nat → Option Cell
  | some i => cols.get? i
  | none => none

/-- One body row of the table shape to a `Player` record.  The High
School column, when present, overwrites the `high_school` local even if
the Hometown column's "city / school" split already filled it. -/
def rowToPlayer (env : ScrapeEnv) (tid : Int)
    (team season division domain : String) (idx : ColIdx) (row : HRow) : Player :=
  let cols := row.cells
  let np : String × String :=
    match getCell cols idx.nameIdx with
    | some cell =>
      match cell.link with
      | some (ltext, href) => (clean_text ltext, buildProfileUrl domain href)
      | none => (clean_text cell.text, "")
    | none => ("", "")
  let jersey :=
    match getCell cols idx.jerseyIdx with
    | some cell =>
      let j := clean_text cell.text
      orElseStr (extract_jersey_number j) j
    | none => ""
  let position :=
    match getCell cols idx.posIdx with
    | some cell => extract_position (clean_text cell.text)
    | none => ""
  let year :=
    match getCell cols idx.yearIdx with
    | some cell => normalize_academic_year (clean_text cell.text)
    | none => ""
  let height :=
    match getCell cols idx.heightIdx with
    | some cell =>
      let t := clean_text cell.text
      orElseStr (extract_height t) t
    | none => ""
  let hp : String × String :=
    match getCell cols idx.hometownIdx with
    | some cell => extract_hometown_parts (clean_text cell.text)
    | none => ("", "")
  let highSchool :=
    match getCell cols idx.hsIdx with
    | some cell => clean_text cell.text
    | none => hp.2
  let player : Player :=
    { teamId := tid, team := team, season := season, division := division,
      name := np.1, jersey := jersey, position := position, height := height,
      year := year, hometown := hp.1, highSchool := highSchool, url := np.2 }
  if env.scrapeProfiles && np.2 ≠ "" then scrapePlayerProfile env player else player

/-- The table lookup of `_extract_players_from_table`:
`html.find('table', class_='sidearm-table')`, else `html.find('table')`. -/
def chosenTable (page : Page) : Option HTable :=
  match page.tableSidearm with
  | some t => some t
  | none => page.tableAny

/-- The row loop of `_extract_players_from_table`: skip rows with fewer
than two cells, append a record for every other row. -/
def tableRowsToPlayers (env : ScrapeEnv) (tid : Int)
    (team season division domain : String) (idx : ColIdx)
    (rows : List HRow) : List Player :=
  rows.foldl (fun acc row =>
    if row.cells.length < 2 then acc
    else acc ++ [rowToPlayer env tid team season division domain idx row]) []

/-- `StandardScraper._extract_players_from_table`: locate a table
(`sidearm-table` class first, generic second), compute column indices from
the header, then build one record per row of `rows[1:]` having at least
two cells. -/
def extractFromTable (env : ScrapeEnv) (tid : Int)
    (team season division base : String) (page : Page) : List Player :=
  match chosenTable page with
  | none => []
  | some table =>
    match tableHeaderCells table with
    | none => []
    | some hcells =>
      tableRowsToPlayers env tid team season division (env.domainOf base)
        (mkColIdx (hcells.map (fun c => toLowerStr (clean_text c.text))))
        ((tableBodyRows table).drop 1)

/-- `StandardScraper._extract_players`: item-list shape when any
`li.sidearm-roster-player` container exists, else the table fallback. -/
def extractPlayers (env : ScrapeEnv) (tid : Int)
    (team season division base : String) (page : Page) : List Player :=
  if page.rosterItems.isEmpty then
    extractFromTable env tid team season division base page
  else
    page.rosterItems.map (itemToPlayer env tid team season division (env.domainOf base))

/-- `StandardScraper.scrape_team`: build the roster URL, fetch it with the
404-retry chain (`{base}/roster`, then `{base}/roster.aspx`), give up with
zero records unless some attempt returned 200, verify the season (warning
only), and extract.  The warm-up fetch of the bare domain only primes
transport cookies and its response is discarded; the surrounding
`try/except` returns `[]` on any request error, so the function is total. -/
def scrapeTeam (env : ScrapeEnv) (tid : Int)
    (teamName baseUrl season division : String) : List Player :=
  let urlFormat := get_url_format tid baseUrl
  let rosterUrl := build_roster_url baseUrl season urlFormat
  let r1 := env.fetch rosterUrl
  let resp :=
    if r1.1 = 404 then
      let r2 := env.fetch (rstripSlash baseUrl ++ "/roster")
      if r2.1 = 200 then r2
      else env.fetch (rstripSlash baseUrl ++ "/roster.aspx")
    else r1
  if resp.1 ≠ 200 then []
  else extractPlayers env tid teamName season division baseUrl resp.2

/-!  `RosterManager`: the batch orchestrator and its three report lists. -/

/-- One row of teams.csv as loaded by `load_teams`. -/
structure TeamEntry where
  team : String
  ncaaId : Int
  url : String
deriving Repr, DecidableEq

/-- An entry of the failed-teams report (team, id, url, error message). -/
structure FailedEntry where
  team : String
  ncaaId : Int
  url : String
  error : String
deriving Repr, DecidableEq

/-- An entry of the successful-teams report (team, id, player count). -/
structure SuccessEntry where
  team : String
  ncaaId : Int
  playerCount : Nat
deriving Repr, DecidableEq

/-- The orchestrator's accumulated state: all players plus the three
report lists. -/
structure RunReport where
  allPlayers : List Player := []
  zeroTeams : List TeamEntry := []
  failedTeams : List FailedEntry := []
  successfulTeams : List SuccessEntry := []
deriving Repr

/-- One iteration of the `RosterManager.scrape_teams` loop: `runTeam`
abstracts `self.scraper.scrape_team`, which either raises (the `except`
arm captures `str(e)`) or returns a player list. -/
def classifyTeam (runTeam : TeamEntry → Except String (List Player))
    (r : RunReport) (t : TeamEntry) : RunReport :=
  match runTeam t with
  | .error e => { r with failedTeams := r.failedTeams ++ [⟨t.team, t.ncaaId, t.url, e⟩] }
  | .ok players =>
    if players.length = 0 then
      { r with zeroTeams := r.zeroTeams ++ [t] }
    else
      { r with allPlayers := r.allPlayers ++ players,
               successfulTeams := r.successfulTeams ++ [⟨t.team, t.ncaaId, players.length⟩] }

/-- `RosterManager.scrape_teams` over an (already `max_teams`-limited)
team list. -/
def scrapeTeams (runTeam : TeamEntry → Except String (List Player))
    (teams : List TeamEntry) : RunReport :=
  teams.foldl (classifyTeam runTeam) {}

/-- `teams[:max_teams] if max_teams else teams` (0 and `None` are falsy). -/
def teamsToScrape (teams : List TeamEntry) : Option Nat → List TeamEntry
  | none => teams
  | some m => if m = 0 then teams else teams.take m

/-!  `enhance_roster_data.py`: the standalone enhancement tool over CSV
rows. -/

/-- A roster CSV row with the canonical fields the enhancer touches
(`classYear` embeds the 'class' CSV column; absent keys read as empty). -/
structure CsvRow where
  url : String := ""
  name : String := ""
  team : String := ""
  position : String := ""
  height : String := ""
  classYear : String := ""
  major : String := ""
  hometown : String := ""
  highSchool : String := ""
  previousSchool : String := ""
deriving Repr, DecidableEq

/-- The enhancer's bio-div / dl update: the emptiness guard is part of
each branch condition, so a label whose field already has data falls
through to the next rule. -/
def updateRowBio (row : CsvRow) (label value : String) : CsvRow :=
  if (containsS label "position" || containsS label "pos") && row.position = "" then
    { row with position := extract_position value }
  else if (containsS label "height" || containsS label "ht") && row.height = "" then
    { row with height := orElseStr (extract_height value) value }
  else if (containsS label "class" || containsS label "year" ||
           containsS label "eligibility") && row.classYear = "" then
    { row with classYear := normalize_academic_year value }
  else if (containsS label "major" || containsS label "academic") && row.major = "" then
    { row with major := value }
  else if containsS label "hometown" && row.hometown = "" then
    if (extract_hometown_parts value).2 ≠ "" && row.highSchool = "" then
      { row with hometown := (extract_hometown_parts value).1,
                 highSchool := (extract_hometown_parts value).2 }
    else { row with hometown := (extract_hometown_parts value).1 }
  else if (containsS label "high school" || containsS label "hs") && row.highSchool = "" then
    { row with highSchool := value }
  else if (containsS label "previous school" || containsS label "last school" ||
           containsS label "transfer") && row.previousSchool = "" then
    { row with previousSchool := value }
  else row

/-- The enhancer's detail-table update (reduced label aliases). -/
def updateRowTable (row : CsvRow) (label value : String) : CsvRow :=
  if containsS label "position" && row.position = "" then
    { row with position := extract_position value }
  else if containsS label "height" && row.height = "" then
    { row with height := orElseStr (extract_height value) value }
  else if (containsS label "class" || containsS label "year") && row.classYear = "" then
    { row with classYear := normalize_academic_year value }
  else if containsS label "major" && row.major = "" then
    { row with major := value }
  else if containsS label "hometown" && row.hometown = "" then
    if (extract_hometown_parts value).2 ≠ "" && row.highSchool = "" then
      { row with hometown := (extract_hometown_parts value).1,
                 highSchool := (extract_hometown_parts value).2 }
    else { row with hometown := (extract_hometown_parts value).1 }
  else if containsS label "high school" && row.highSchool = "" then
    { row with highSchool := value }
  else if containsS label "previous school" && row.previousSchool = "" then
    { row with previousSchool := value }
  else row

/-- Enhancer label/value preprocessing with the empty/"-" value skip. -/
def rowStep (upd : CsvRow → String → String → CsvRow)
    (row : CsvRow) (rawLabel rawValue : String) : CsvRow :=
  let label := toLowerStr (clean_text rawLabel)
  let value := clean_text rawValue
  if value = "" || value = "-" then row else upd row label value

/-- One bio item of the enhancer's bio-div loop. -/
def rowBioStep (r : CsvRow) (it : BioItem) : CsvRow :=
  match it.label, it.value with
  | some l, some v => rowStep updateRowBio r l v
  | _, _ => r

/-- One zipped dt/dd pair of the enhancer's dl loop. -/
def rowDlStep (r : CsvRow) (lv : String × String) : CsvRow :=
  rowStep updateRowBio r lv.1 lv.2

/-- One row of an enhancer detail table. -/
def rowTableRowStep (r : CsvRow) (row : HRow) : CsvRow :=
  match row.cells with
  | c0 :: c1 :: _ => rowStep updateRowTable r c0.text c1.text
  | _ => r

/-- One enhancer detail table: all of its rows. -/
def rowTableStep (r : CsvRow) (rows : List HRow) : CsvRow :=
  rows.foldl rowTableRowStep r

/-- The enhancer's bio-div pass. -/
def rowBioStage (page : ProfilePage) (r : CsvRow) : CsvRow :=
  match page.bioDiv with
  | some items => items.foldl rowBioStep r
  | none => r

/-- The enhancer's dl pass. -/
def rowDlStage (page : ProfilePage) (r : CsvRow) : CsvRow :=
  match page.dl with
  | some dl => (dl.1.zip dl.2).foldl rowDlStep r
  | none => r

/-- The enhancer's detail-table pass. -/
def rowTablesStage (page : ProfilePage) (r : CsvRow) : CsvRow :=
  page.detailTables.foldl rowTableStep r

/-- The enhancer's three profile shapes applied to a fetched page. -/
def enhanceWith (page : ProfilePage) (row0 : CsvRow) : CsvRow :=
  rowTablesStage page (rowDlStage page (rowBioStage page row0))

/-- `ProfileEnhancer.scrape_player_profile`: skip when the stripped URL is
empty; skip when `force` is off and the row already has any of position /
height / class / hometown; otherwise fetch and enhance.  The boolean
result records whether a network request was made (a failed fetch still
counts as a request and returns the row unchanged). -/
def enhancerScrapeProfile (force : Bool) (fetch : String → Option ProfilePage)
    (row : CsvRow) : CsvRow × Bool :=
  let url := strip row.url
  if url = "" then (row, false)
  else if !force && (row.position ≠ "" || row.height ≠ "" ||
                     row.classYear ≠ "" || row.hometown ≠ "") then
    (row, false)
  else
    match fetch url with
    | none => (row, true)
    | some page => (enhanceWith page row, true)

/-!  ## Generic fold lemmas -/

/-- A predicate preserved by every fold step is preserved by the fold. -/
theorem foldl_inv {α β : Type} (f : α → β → α) (P : α → Prop)
    (h : ∀ a b, P a → P (f a b)) :
    ∀ (l : List β) (a : α), P a → P (l.foldl f a) := by
  intro l
  induction l with
  | nil => intro a ha; exact ha
  | cons b bs ih => intro a ha; exact ih (f a b) (h a b ha)

/-- A projection that every step leaves unchanged while it is not `bad`
is unchanged by the whole fold. -/
theorem foldl_pres {α β : Type} (f : α → β → α) (g : α → String)
    (h : ∀ a b, g a ≠ "" → g (f a b) = g a) :
    ∀ (l : List β) (a : α), g a ≠ "" → g (l.foldl f a) = g a := by
  intro l
  induction l with
  | nil => intro a _; rfl
  | cons b bs ih =>
    intro a ha
    have hs := h a b ha
    rw [List.foldl_cons, ih (f a b) (by rw [hs]; exact ha), hs]

/-!  ## Whitespace-collapsing: structure of `clean_text` output (claim C9) -/

/-- Unfolding equation for `collapseWS` on a cons cell. -/
theorem collapseWS_cons (b : Bool) (c : Char) (cs : List Char) :
    collapseWS b (c :: cs) =
      if isWS c then
        (if b then collapseWS true cs else ' ' :: collapseWS true cs)
      else c :: collapseWS false cs := rfl

/-- Unfolding equation for `rstripL` on a cons cell. -/
theorem rstripL_cons_eq (c : Char) (cs : List Char) :
    rstripL (c :: cs) =
      match rstripL cs with
      | [] => if isWS c then [] else [c]
      | d :: ds => c :: d :: ds := rfl

/-- Well-formedness of a collapsed character list: every whitespace
character is a plain space not followed by another whitespace character. -/
def okRun : List Char → Bool
  | [] => true
  | [c] => !isWS c || c == ' '
  | c :: d :: rest => (!isWS c || (c == ' ' && !isWS d)) && okRun (d :: rest)

theorem okRun_tail {c : Char} {l : List Char} (h : okRun (c :: l) = true) :
    okRun l = true := by
  cases l with
  | nil => rfl
  | cons d rest =>
    simp only [okRun, Bool.and_eq_true] at h
    exact h.2

theorem collapse_true_head :
    ∀ (l : List Char) (c : Char) (rest : List Char),
      collapseWS true l = c :: rest → isWS c = false := by
  intro l
  induction l with
  | nil => intro c rest h; exact absurd h (by simp [collapseWS])
  | cons a as ih =>
    intro c rest h
    rw [collapseWS_cons] at h
    by_cases ha : isWS a
    · rw [if_pos ha, if_pos rfl] at h
      exact ih c rest h
    · rw [if_neg ha] at h
      injection h with h1 _
      rw [← h1]
      simpa using ha

theorem collapse_okRun : ∀ (l : List Char) (b : Bool), okRun (collapseWS b l) = true := by
  intro l
  induction l with
  | nil => intro b; rfl
  | cons a as ih =>
    intro b
    rw [collapseWS_cons]
    by_cases ha : isWS a
    · rw [if_pos ha]
      cases b with
      | true => rw [if_pos rfl]; exact ih true
      | false =>
        rw [if_neg (by simp)]
        cases hx : collapseWS true as with
        | nil => rfl
        | cons c rest =>
          have hc := collapse_true_head as c rest hx
          have htl := ih true
          rw [hx] at htl
          simp [okRun, hc, htl]
    · have ha' : isWS a = false := by simpa using ha
      rw [if_neg ha]
      cases hx : collapseWS false as with
      | nil => simp [okRun, ha']
      | cons c rest =>
        have htl := ih false
        rw [hx] at htl
        simp [okRun, ha', htl]

theorem collapse_id : ∀ (r : List Char), okRun r = true → collapseWS false r = r := by
  intro r
  induction r with
  | nil => intro _; rfl
  | cons c tail ih =>
    intro h
    cases tail with
    | nil =>
      by_cases hc : isWS c
      · have hcsp : c = ' ' := by
          have h1 : (!isWS c || c == ' ') = true := h
          rw [hc] at h1
          simpa using h1
        rw [collapseWS_cons, if_pos hc, if_neg (by simp), hcsp]
        rfl
      · rw [collapseWS_cons, if_neg hc]
        rfl
    | cons d rest =>
      have hco := h
      simp only [okRun, Bool.and_eq_true] at hco
      obtain ⟨h1, h2⟩ := hco
      have htail := ih h2
      by_cases hc : isWS c
      · have hpair : c = ' ' ∧ isWS d = false := by
          rw [hc] at h1
          simpa using h1
        have hdnot : ¬ isWS d = true := by rw [hpair.2]; simp
        have hstep : collapseWS false (d :: rest) = d :: collapseWS false rest := by
          rw [collapseWS_cons, if_neg hdnot]
        have hdrest : collapseWS false rest = rest := by
          have h3 := htail
          rw [hstep] at h3
          injection h3 with _ h4
        rw [collapseWS_cons, if_pos hc, if_neg (by simp)]
        rw [show collapseWS true (d :: rest) = d :: collapseWS false rest from by
              rw [collapseWS_cons, if_neg hdnot]]
        rw [hdrest, hpair.1]
      · rw [collapseWS_cons, if_neg hc, htail]

theorem lstrip_head :
    ∀ (l : List Char) (c : Char) (rest : List Char),
      lstripL l = c :: rest → isWS c = false := by
  intro l
  induction l with
  | nil => intro c rest h; exact absurd h (by simp [lstripL])
  | cons a as ih =>
    intro c rest h
    by_cases ha : isWS a
    · rw [lstripL, List.dropWhile_cons, if_pos ha] at h
      exact ih c rest h
    · rw [lstripL, List.dropWhile_cons, if_neg ha] at h
      injection h with h1 _
      rw [← h1]
      simpa using ha

theorem okRun_lstrip : ∀ (l : List Char), okRun l = true → okRun (lstripL l) = true := by
  intro l
  induction l with
  | nil => intro _; rfl
  | cons a as ih =>
    intro h
    by_cases ha : isWS a
    · rw [lstripL, List.dropWhile_cons, if_pos ha]
      exact ih (okRun_tail h)
    · rw [lstripL, List.dropWhile_cons, if_neg ha]
      exact h

theorem rstrip_head :
    ∀ (c : Char) (cs : List Char),
      rstripL (c :: cs) = [] ∨ ∃ ds, rstripL (c :: cs) = c :: ds := by
  intro c cs
  cases hx : rstripL cs with
  | nil =>
    by_cases hc : isWS c
    · left; rw [rstripL_cons_eq, hx, if_pos hc]
    · right; exact ⟨[], by rw [rstripL_cons_eq, hx, if_neg hc]⟩
  | cons d ds => right; exact ⟨d :: ds, by rw [rstripL_cons_eq, hx]⟩

theorem okRun_rstrip : ∀ (l : List Char), okRun l = true → okRun (rstripL l) = true := by
  intro l
  induction l with
  | nil => intro _; rfl
  | cons c cs ih =>
    intro h
    rw [rstripL_cons_eq]
    cases hx : rstripL cs with
    | nil =>
      by_cases hc : isWS c
      · rw [if_pos hc]; rfl
      · have hc' : isWS c = false := by simpa using hc
        rw [if_neg hc]
        simp [okRun, hc']
    | cons d ds =>
      have htl := ih (okRun_tail h)
      rw [hx] at htl
      cases cs with
      | nil => exact absurd hx (by simp [rstripL])
      | cons e cs' =>
        have hde : d = e := by
          rcases rstrip_head e cs' with h1 | ⟨ds', h1⟩
          · rw [h1] at hx; exact absurd hx (by simp)
          · rw [h1] at hx
            injection hx with h2 _
            exact h2.symm
        simp only [okRun, Bool.and_eq_true] at h ⊢
        refine ⟨?_, htl⟩
        rw [hde]
        exact h.1

theorem rstrip_idem : ∀ (l : List Char), rstripL (rstripL l) = rstripL l := by
  intro l
  induction l with
  | nil => rfl
  | cons c cs ih =>
    rw [rstripL_cons_eq]
    cases hx : rstripL cs with
    | nil =>
      by_cases hc : isWS c
      · rw [if_pos hc]; rfl
      · rw [if_neg hc, rstripL_cons_eq]
        rw [show rstripL ([] : List Char) = [] from rfl, if_neg hc]
    | cons d ds =>
      have h2 := ih
      rw [hx] at h2
      rw [rstripL_cons_eq, h2]

theorem strip_idem : ∀ (l : List Char), stripL (stripL l) = stripL l := by
  intro l
  unfold stripL
  cases hm : lstripL l with
  | nil => rfl
  | cons c ms =>
    have hc := lstrip_head l c ms hm
    have hcn : ¬ isWS c = true := by rw [hc]; simp
    rcases rstrip_head c ms with h1 | ⟨ds, h1⟩
    · rw [h1]; rfl
    · rw [h1]
      have hl : lstripL (c :: ds) = c :: ds := by
        rw [lstripL, List.dropWhile_cons, if_neg hcn]
      rw [hl, ← h1, rstrip_idem]

/-- Claim C9: `clean_text` is idempotent — for all input strings `s`,
`clean_text (clean_text s) = clean_text s`, where `clean_text` collapses
every whitespace run (including newlines) to a single space and trims,
and maps empty input to empty output. -/
theorem claim_C9_clean_text_idempotent :
    (∀ s : String, clean_text (clean_text s) = clean_text s) ∧ clean_text "" = "" := by
  constructor
  · intro s
    by_cases hs : s = ""
    · rw [hs]; rfl
    · rw [show clean_text s = ⟨stripL (collapseWS false s.data)⟩ from by
            rw [clean_text, if_neg hs]]
      set r := stripL (collapseWS false s.data) with hr
      by_cases hr0 : (⟨r⟩ : String) = ""
      · rw [clean_text, if_pos hr0, hr0]
      · rw [clean_text, if_neg hr0]
        have hok : okRun r = true := by
          rw [hr]
          exact okRun_rstrip _ (okRun_lstrip _ (collapse_okRun s.data false))
        have hcol : collapseWS false r = r := collapse_id r hok
        have hstr : stripL r = r := by
          rw [hr]; exact strip_idem _
        have hdat : (⟨r⟩ : String).data = r := rfl
        rw [hdat, hcol, hstr]
  · rfl

/-!  ## `extract_hometown_parts` characterization (claim C8) -/

theorem drop_length_takeWhile (p : Char → Bool) :
    ∀ (l : List Char), l.drop (l.takeWhile p).length = l.dropWhile p := by
  intro l
  induction l with
  | nil => rfl
  | cons a as ih =>
    by_cases ha : p a
    · rw [List.takeWhile_cons, if_pos ha]
      simp only [List.length_cons, List.drop_succ_cons]
      rw [ih, List.dropWhile_cons, if_pos ha]
    · rw [List.takeWhile_cons, if_neg ha, List.dropWhile_cons, if_neg ha]
      rfl

/-- `wsThenLine` in one equation, for rewriting at an arbitrary index. -/
theorem wsThenLine_eq_match (k : Nat) (rest : List Char) :
    wsThenLine k rest =
      match (rest.drop k).takeWhile (· ≠ '\n') with
      | [] =>
        match k with
        | 0 => none
        | k' + 1 => wsThenLine k' rest
      | c :: g => some (c :: g) := by
  cases k with
  | zero => rw [wsThenLine]
  | succ k' => rw [wsThenLine]

/-- When every character after the slash is a newline, the `\s*(.+)` tail
cannot match at any backtracking point. -/
theorem wsThenLine_none (rest : List Char) (hnl : ∀ c ∈ rest, c = '\n') :
    ∀ (k : Nat), wsThenLine k rest = none := by
  have htw : ∀ j, (rest.drop j).takeWhile (· ≠ '\n') = [] := by
    intro j
    cases hd : rest.drop j with
    | nil => rfl
    | cons c rs =>
      have hc : c = '\n' :=
        hnl c (List.drop_subset j rest (hd ▸ List.mem_cons_self c rs))
      rw [List.takeWhile_cons, if_neg (by simp [hc])]
  intro k
  induction k with
  | zero => rw [wsThenLine, htw 0]
  | succ k' ih => rw [wsThenLine, htw (k' + 1)]; exact ih

/-- When some non-whitespace character follows the slash, the tail matches
with no backtracking: the group runs from the first non-whitespace
character to the end of its line. -/
theorem wsThenLine_eq_of_nonws (rest : List Char) (c : Char) (rs : List Char)
    (hd : rest.dropWhile isWS = c :: rs) :
    wsThenLine (rest.takeWhile isWS).length rest =
      some ((rest.dropWhile isWS).takeWhile (· ≠ '\n')) := by
  have hc : isWS c = false := lstrip_head rest c rs hd
  have hc' : ¬ c = '\n' := by
    intro h
    rw [h] at hc
    exact absurd hc (by simp [isWS])
  rw [wsThenLine_eq_match, drop_length_takeWhile, hd, List.takeWhile_cons,
      if_pos (by simp [hc'])]

/-- When everything after the slash is whitespace but some character is
not a newline, backtracking finds a whitespace group (whose strip is
empty). -/
theorem wsThenLine_allws (rest : List Char) (hws : ∀ c ∈ rest, isWS c = true) :
    ∀ (k : Nat), (∃ j c, j ≤ k ∧ rest.get? j = some c ∧ ¬ c = '\n') →
    ∃ g, wsThenLine k rest = some g ∧ ∀ c ∈ g, isWS c = true := by
  have hsub : ∀ (n : Nat) (x : Char) (g : List Char),
      (rest.drop n).takeWhile (· ≠ '\n') = x :: g →
      ∀ c ∈ x :: g, isWS c = true := by
    intro n x g htw c hc
    exact hws c (List.drop_subset n rest ((List.takeWhile_sublist _).subset (htw ▸ hc)))
  intro k
  induction k with
  | zero =>
    rintro ⟨j, c, hj, hg, hc⟩
    have hj0 : j = 0 := Nat.le_zero.mp hj
    rw [hj0] at hg
    cases rest with
    | nil => simp at hg
    | cons a as =>
      have hac : a = c := by simpa using hg
      rw [wsThenLine]
      have : (List.drop 0 (a :: as)).takeWhile (· ≠ '\n') = a :: as.takeWhile (· ≠ '\n') := by
        rw [List.drop_zero, List.takeWhile_cons, if_pos (by simp [hac, hc])]
      rw [this]
      exact ⟨_, rfl, hsub 0 a _ this⟩
  | succ k' ih =>
    rintro ⟨j, c, hj, hg, hc⟩
    rw [wsThenLine]
    cases htw : (rest.drop (k' + 1)).takeWhile (· ≠ '\n') with
    | cons x g => exact ⟨x :: g, rfl, hsub (k' + 1) x g htw⟩
    | nil =>
      have hj' : j ≤ k' := by
        rcases Nat.lt_or_ge j (k' + 1) with h | h
        · omega
        · exfalso
          have hjeq : j = k' + 1 := Nat.le_antisymm hj h
          rw [hjeq] at hg
          have hg0 : (rest.drop (k' + 1)).get? 0 = some c := by
            rw [List.get?_drop]
            simpa using hg
          cases hd : rest.drop (k' + 1) with
          | nil => rw [hd] at hg0; simp at hg0
          | cons a as =>
            rw [hd] at hg0 htw
            have hac : a = c := by simpa using hg0
            rw [List.takeWhile_cons] at htw
            by_cases han : a = '\n'
            · exact hc (hac ▸ han)
            · rw [if_pos (by simp [han])] at htw
              simp at htw
      exact ih ⟨j, c, hj', hg, hc⟩

/-- Claim C8 (amended): `extract_hometown_parts` splits at the first `/`
only when at least one character precedes it and at least one non-newline
character follows it; in that case the hometown is the pre-slash text
stripped and the high school is the post-slash text up to the end of its
line, stripped.  With no slash, a leading slash, or only newlines after
the slash, it returns `(strip s, "")`.  The spec's two examples hold. -/
theorem claim_C8_amended :
    (∀ s : String, s.data.findIdx? (· = '/') = none →
       extract_hometown_parts s = (strip s, "")) ∧
    (∀ (s : String) (i : Nat), s.data.findIdx? (· = '/') = some i → i ≠ 0 →
       (∃ c ∈ s.data.drop (i + 1), ¬ c = '\n') →
       extract_hometown_parts s =
         (⟨stripL (s.data.take i)⟩,
          ⟨stripL (((s.data.drop (i + 1)).dropWhile isWS).takeWhile (· ≠ '\n'))⟩)) ∧
    (∀ (s : String) (i : Nat), s.data.findIdx? (· = '/') = some i → i ≠ 0 →
       (∀ c ∈ s.data.drop (i + 1), c = '\n') →
       extract_hometown_parts s = (strip s, "")) ∧
    (∀ s : String, s.data.head? = some '/' →
       extract_hometown_parts s = (strip s, "")) ∧
    extract_hometown_parts "Boston, MA / Central HS" = ("Boston, MA", "Central HS") ∧
    extract_hometown_parts "Boston, MA" = ("Boston, MA", "") := by
  have hne : ∀ (s : String) (i : Nat), s.data.findIdx? (· = '/') = some i → ¬ s = "" := by
    intro s i hf hs
    rw [hs] at hf
    simp at hf
  refine ⟨?_, ?_, ?_, ?_, by decide, by decide⟩
  · intro s hf
    by_cases hs : s = ""
    · rw [hs]; rfl
    · simp only [extract_hometown_parts, if_neg hs, hf]
  · intro s i hf hi hex
    simp only [extract_hometown_parts, if_neg (hne s i hf), hf, if_neg hi]
    cases hd : (s.data.drop (i + 1)).dropWhile isWS with
    | cons c rs =>
      rw [wsThenLine_eq_of_nonws _ c rs hd, hd]
    | nil =>
      have hws : ∀ c ∈ s.data.drop (i + 1), isWS c = true :=
        List.dropWhile_eq_nil_iff.mp hd
      obtain ⟨c, hcm, hcn⟩ := hex
      obtain ⟨j, hget⟩ := List.mem_iff_get?.mp hcm
      have hjlt : j < (s.data.drop (i + 1)).length := by
        by_contra hge
        rw [List.get?_eq_none.mpr (Nat.le_of_not_lt hge)] at hget
        simp at hget
      have hk : ((s.data.drop (i + 1)).takeWhile isWS).length =
          (s.data.drop (i + 1)).length := by
        rw [List.takeWhile_eq_self_iff.mpr hws]
      obtain ⟨g, hg, hgws⟩ :=
        wsThenLine_allws (s.data.drop (i + 1)) hws
          ((s.data.drop (i + 1)).takeWhile isWS).length ⟨j, c, by omega, hget, hcn⟩
      rw [hg]
      have h1 : stripL g = [] := by
        have hlg : lstripL g = [] := List.dropWhile_eq_nil_iff.mpr hgws
        rw [stripL, hlg]
        rfl
      show ((⟨stripL (s.data.take i)⟩ : String), (⟨stripL g⟩ : String)) = _
      rw [h1]
      rfl
  · intro s i hf hi hnl
    simp only [extract_hometown_parts, if_neg (hne s i hf), hf, if_neg hi]
    rw [wsThenLine_none _ hnl]
  · intro s hh
    cases hda : s.data with
    | nil => rw [hda] at hh; simp at hh
    | cons a as =>
      rw [hda] at hh
      have ha : a = '/' := by simpa using hh
      have hf : s.data.findIdx? (· = '/') = some 0 := by
        rw [hda, List.findIdx?_cons, if_pos (by simp [ha])]
      simp only [extract_hometown_parts, if_neg (hne s 0 hf), hf, if_pos]

/-- Claim C8, counterexample: on an input whose first character is the
slash, `extract_hometown_parts` does not split at the first `/` — it
returns the whole trimmed input as the hometown — so the claimed
unconditional first-slash split fails. -/
theorem claim_C8_counterexample :
    extract_hometown_parts "/Central HS" = ("/Central HS", "") ∧
    ¬ extract_hometown_parts "/Central HS" = ("", "Central HS") := by
  constructor
  · decide
  · decide

/-- Witness for claim C8 (amended), instantiating the split case at the
spec's own example. -/
theorem claim_C8_witness :
    extract_hometown_parts "Boston, MA / Central HS" =
      (⟨stripL ("Boston, MA / Central HS".data.take 11)⟩,
       ⟨stripL ((("Boston, MA / Central HS".data.drop 12).dropWhile isWS).takeWhile
         (· ≠ '\n'))⟩) :=
  claim_C8_amended.2.1 "Boston, MA / Central HS" 11 (by decide) (by decide) (by decide)

/-!  ## ASCII case facts (claim C2): `extract_position` is case-insensitive -/

theorem char_toNat_inj {c d : Char} (h : c.toNat = d.toNat) : c = d :=
  Char.ext (UInt32.ext h)

theorem char_eq_iff (c d : Char) : c = d ↔ c.toNat = d.toNat :=
  ⟨fun h => h ▸ rfl, char_toNat_inj⟩

theorem toNat_ofNat_valid (n : Nat) (hv : n.isValidChar) : (Char.ofNat n).toNat = n := by
  rw [Char.ofNat, dif_pos hv]
  simp only [Char.ofNatAux, Char.toNat, UInt32.toNat]
  rfl

theorem uint32_le_iff (a b : UInt32) : a ≤ b ↔ a.toNat ≤ b.toNat := Iff.rfl

theorem toNat_toUpper (c : Char) :
    c.toUpper.toNat = if 97 ≤ c.toNat ∧ c.toNat ≤ 122 then c.toNat - 32 else c.toNat := by
  show (if c.toNat ≥ 97 ∧ c.toNat ≤ 122 then Char.ofNat (c.toNat - 32) else c).toNat = _
  by_cases h : 97 ≤ c.toNat ∧ c.toNat ≤ 122
  · rw [if_pos h, if_pos h]
    exact toNat_ofNat_valid _ (Or.inl (by omega))
  · rw [if_neg h, if_neg h]

theorem toNat_toLower (c : Char) :
    c.toLower.toNat = if 65 ≤ c.toNat ∧ c.toNat ≤ 90 then c.toNat + 32 else c.toNat := by
  show (if c.toNat ≥ 65 ∧ c.toNat ≤ 90 then Char.ofNat (c.toNat + 32) else c).toNat = _
  by_cases h : 65 ≤ c.toNat ∧ c.toNat ≤ 90
  · rw [if_pos h, if_pos h]
    exact toNat_ofNat_valid _ (Or.inl (by omega))
  · rw [if_neg h, if_neg h]

theorem toUpper_idem (c : Char) : c.toUpper.toUpper = c.toUpper := by
  apply char_toNat_inj
  simp only [toNat_toUpper]
  split_ifs <;> omega

theorem toUpper_toLower (c : Char) : c.toLower.toUpper = c.toUpper := by
  apply char_toNat_inj
  simp only [toNat_toUpper, toNat_toLower]
  split_ifs <;> omega

theorem isWS_iff (c : Char) : isWS c = true ↔
    (c.toNat = 32 ∨ c.toNat = 9 ∨ c.toNat = 10 ∨ c.toNat = 13 ∨
     c.toNat = 12 ∨ c.toNat = 11) := by
  have h1 : (' ' : Char).toNat = 32 := rfl
  have h2 : ('\t' : Char).toNat = 9 := rfl
  have h3 : ('\n' : Char).toNat = 10 := rfl
  have h4 : ('\r' : Char).toNat = 13 := rfl
  have h5 : (Char.ofNat 12).toNat = 12 := rfl
  have h6 : (Char.ofNat 11).toNat = 11 := rfl
  simp only [isWS, Bool.or_eq_true, decide_eq_true_eq, char_eq_iff, h1, h2, h3, h4, h5, h6]
  tauto

theorem isWS_toUpper (c : Char) : isWS c.toUpper = isWS c := by
  rw [Bool.eq_iff_iff, isWS_iff, isWS_iff, toNat_toUpper]
  by_cases h : 97 ≤ c.toNat ∧ c.toNat ≤ 122
  · rw [if_pos h]; omega
  · rw [if_neg h]

theorem isWS_toLower (c : Char) : isWS c.toLower = isWS c := by
  rw [Bool.eq_iff_iff, isWS_iff, isWS_iff, toNat_toLower]
  by_cases h : 65 ≤ c.toNat ∧ c.toNat ≤ 90
  · rw [if_pos h]; omega
  · rw [if_neg h]

theorem isWordChar_iff (c : Char) : isWordChar c = true ↔
    ((65 ≤ c.toNat ∧ c.toNat ≤ 90) ∨ (97 ≤ c.toNat ∧ c.toNat ≤ 122) ∨
     (48 ≤ c.toNat ∧ c.toNat ≤ 57) ∨ c.toNat = 95) := by
  have h95 : ('_' : Char).toNat = 95 := rfl
  have e65 : (65 : UInt32).toNat = 65 := rfl
  have e90 : (90 : UInt32).toNat = 90 := rfl
  have e97 : (97 : UInt32).toNat = 97 := rfl
  have e122 : (122 : UInt32).toNat = 122 := rfl
  have e48 : (48 : UInt32).toNat = 48 := rfl
  have e57 : (57 : UInt32).toNat = 57 := rfl
  simp only [isWordChar, Char.isAlphanum, Char.isAlpha, Char.isUpper, Char.isLower,
    Char.isDigit, Bool.or_eq_true, Bool.and_eq_true, decide_eq_true_eq, char_eq_iff,
    ge_iff_le, uint32_le_iff, e65, e90, e97, e122, e48, e57, h95]
  exact ⟨fun h => by tauto, fun h => by tauto⟩

theorem isWordChar_toUpper (c : Char) : isWordChar c.toUpper = isWordChar c := by
  rw [Bool.eq_iff_iff, isWordChar_iff, isWordChar_iff, toNat_toUpper]
  by_cases h : 97 ≤ c.toNat ∧ c.toNat ≤ 122
  · rw [if_pos h]; omega
  · rw [if_neg h]

theorem str_ext {a b : String} (h : a.data = b.data) : a = b := by
  cases a; cases b; exact congrArg String.mk h

theorem str_empty_iff (s : String) : s = "" ↔ s.data = [] :=
  ⟨fun h => h ▸ rfl, fun h => str_ext h⟩

theorem map_lstripL (f : Char → Char) (hf : ∀ c, isWS (f c) = isWS c) :
    ∀ l : List Char, lstripL (l.map f) = (lstripL l).map f := by
  intro l
  induction l with
  | nil => rfl
  | cons c cs ih =>
    simp only [List.map_cons, lstripL, List.dropWhile_cons, hf c]
    by_cases hc : isWS c
    · rw [if_pos hc, if_pos hc]
      exact ih
    · rw [if_neg hc, if_neg hc, List.map_cons]

theorem map_rstripL (f : Char → Char) (hf : ∀ c, isWS (f c) = isWS c) :
    ∀ l : List Char, rstripL (l.map f) = (rstripL l).map f := by
  intro l
  induction l with
  | nil => rfl
  | cons c cs ih =>
    rw [List.map_cons, rstripL_cons_eq, ih, rstripL_cons_eq]
    cases hx : rstripL cs with
    | nil =>
      simp only [List.map_nil]
      rw [hf c]
      by_cases hc : isWS c
      · rw [if_pos hc, if_pos hc]; rfl
      · rw [if_neg hc, if_neg hc]; rfl
    | cons d ds =>
      simp only [List.map_cons]

theorem map_stripL (f : Char → Char) (hf : ∀ c, isWS (f c) = isWS c)
    (l : List Char) : stripL (l.map f) = (stripL l).map f := by
  rw [stripL, stripL, map_lstripL f hf, map_rstripL f hf]

theorem strip_toUpperStr (s : String) : strip (toUpperStr s) = toUpperStr (strip s) :=
  str_ext (map_stripL Char.toUpper isWS_toUpper s.data)

theorem strip_toLowerStr (s : String) : strip (toLowerStr s) = toLowerStr (strip s) :=
  str_ext (map_stripL Char.toLower isWS_toLower s.data)

theorem map_toUpper_toUpper (l : List Char) :
    (l.map Char.toUpper).map Char.toUpper = l.map Char.toUpper := by
  rw [List.map_map]
  exact List.map_congr_left (fun c _ => toUpper_idem c)

theorem map_toUpper_toLower (l : List Char) :
    (l.map Char.toLower).map Char.toUpper = l.map Char.toUpper := by
  rw [List.map_map]
  exact List.map_congr_left (fun c _ => toUpper_toLower c)

/-- `extract_position` is case-insensitive: upper- or lower-casing the
whole input does not change the result. -/
theorem extract_position_case (s : String) :
    extract_position (toUpperStr s) = extract_position s ∧
    extract_position (toLowerStr s) = extract_position s := by
  by_cases hs : s = ""
  · rw [hs]
    exact ⟨rfl, rfl⟩
  · have hd : ¬ s.data = [] := fun h => hs ((str_empty_iff s).mpr h)
    have hsu : ¬ toUpperStr s = "" := by
      intro h
      have h2 := (str_empty_iff _).mp h
      rw [show (toUpperStr s).data = s.data.map Char.toUpper from rfl] at h2
      exact hd (List.map_eq_nil.mp h2)
    have hsl : ¬ toLowerStr s = "" := by
      intro h
      have h2 := (str_empty_iff _).mp h
      rw [show (toLowerStr s).data = s.data.map Char.toLower from rfl] at h2
      exact hd (List.map_eq_nil.mp h2)
    constructor
    · simp only [extract_position, if_neg hs, if_neg hsu, strip_toUpperStr]
      have h2 : (toUpperStr (strip s)).data.map Char.toUpper =
          (strip s).data.map Char.toUpper := map_toUpper_toUpper (strip s).data
      have h3 : toUpperStr (toUpperStr (strip s)) = toUpperStr (strip s) :=
        str_ext (map_toUpper_toUpper (strip s).data)
      rw [h2, h3]
    · simp only [extract_position, if_neg hs, if_neg hsl, strip_toLowerStr]
      have h2 : (toLowerStr (strip s)).data.map Char.toUpper =
          (strip s).data.map Char.toUpper := map_toUpper_toLower (strip s).data
      have h3 : toUpperStr (toLowerStr (strip s)) = toUpperStr (strip s) :=
        str_ext (map_toUpper_toLower (strip s).data)
      rw [h2, h3]

theorem findTokenIn_mem :
    ∀ (ts : List String) (u : List Char) (t : String),
      findTokenIn ts u = some t → t ∈ ts := by
  intro ts
  induction ts with
  | nil => intro u t h; exact absurd h (by simp [findTokenIn])
  | cons a as ih =>
    intro u t h
    rw [findTokenIn] at h
    by_cases hc : (a.data.isPrefixOf u &&
        (match u.drop a.data.length with
         | [] => true
         | c :: _ => !isWordChar c)) = true
    · rw [if_pos hc] at h
      injection h with h1
      exact h1 ▸ List.mem_cons_self a as
    · rw [if_neg hc] at h
      exact List.mem_cons_of_mem a (ih u t h)

theorem searchToken_mem :
    ∀ (l : List Char) (b : Bool) (t : String),
      searchToken b l = some t → t ∈ posTokens := by
  intro l
  induction l with
  | nil => intro b t h; exact absurd h (by simp [searchToken])
  | cons c rest ih =>
    intro b t h
    rw [searchToken] at h
    cases b with
    | true => exact ih (isWordChar c) t h
    | false =>
      cases hf : findTokenIn posTokens (c :: rest) with
      | some t' =>
        rw [hf] at h
        injection h with h1
        exact h1 ▸ findTokenIn_mem posTokens (c :: rest) t' hf
      | none =>
        rw [hf] at h
        exact ih (isWordChar c) t h

theorem normalizePos_range :
    ∀ t ∈ posTokens,
      normalizePosToken t = "GK" ∨ normalizePosToken t = "D" ∨
      normalizePosToken t = "M" ∨ normalizePosToken t = "F" := by
  decide

theorem posFallback_range (up : String) :
    posFallback up = "GK" ∨ posFallback up = "D" ∨ posFallback up = "M" ∨
    posFallback up = "F" ∨ posFallback up = "" := by
  rw [posFallback]
  split_ifs <;> tauto

/-- For every input, `extract_position` yields one of the four canonical
codes or the empty string. -/
theorem extract_position_range (s : String) :
    extract_position s = "GK" ∨ extract_position s = "D" ∨
    extract_position s = "M" ∨ extract_position s = "F" ∨
    extract_position s = "" := by
  by_cases hs : s = ""
  · rw [hs]
    tauto
  · cases hm : searchToken false ((strip s).data.map Char.toUpper) with
    | some pos =>
      have hred : extract_position s = normalizePosToken pos := by
        rw [extract_position, if_neg hs, hm]
      rw [hred]
      have := normalizePos_range pos (searchToken_mem _ _ _ hm)
      tauto
    | none =>
      have hred : extract_position s = posFallback (toUpperStr (strip s)) := by
        rw [extract_position, if_neg hs, hm]
      rw [hred]
      exact posFallback_range _

/-!  ## Write-once-if-empty: the profile passes never overwrite a
non-empty field (claim C1) -/

theorem updateBio_pres (p : Player) (l v : String) :
    (updateBio p l v).team = p.team ∧
    (updateBio p l v).division = p.division ∧
    (updateBio p l v).name = p.name ∧
    (updateBio p l v).jersey = p.jersey ∧
    (updateBio p l v).url = p.url ∧
    (p.position ≠ "" → (updateBio p l v).position = p.position) ∧
    (p.height ≠ "" → (updateBio p l v).height = p.height) ∧
    (p.year ≠ "" → (updateBio p l v).year = p.year) ∧
    (p.major ≠ "" → (updateBio p l v).major = p.major) ∧
    (p.hometown ≠ "" → (updateBio p l v).hometown = p.hometown) ∧
    (p.highSchool ≠ "" → (updateBio p l v).highSchool = p.highSchool) ∧
    (p.previousSchool ≠ "" → (updateBio p l v).previousSchool = p.previousSchool) := by
  unfold updateBio
  split_ifs <;> simp_all

theorem updateBioTable_pres (p : Player) (l v : String) :
    (updateBioTable p l v).team = p.team ∧
    (updateBioTable p l v).division = p.division ∧
    (updateBioTable p l v).name = p.name ∧
    (updateBioTable p l v).jersey = p.jersey ∧
    (updateBioTable p l v).url = p.url ∧
    (p.position ≠ "" → (updateBioTable p l v).position = p.position) ∧
    (p.height ≠ "" → (updateBioTable p l v).height = p.height) ∧
    (p.year ≠ "" → (updateBioTable p l v).year = p.year) ∧
    (p.major ≠ "" → (updateBioTable p l v).major = p.major) ∧
    (p.hometown ≠ "" → (updateBioTable p l v).hometown = p.hometown) ∧
    (p.highSchool ≠ "" → (updateBioTable p l v).highSchool = p.highSchool) ∧
    (p.previousSchool ≠ "" → (updateBioTable p l v).previousSchool = p.previousSchool) := by
  unfold updateBioTable
  split_ifs <;> simp_all

/-- Every field projection preserved by both update rule sets is
preserved by the whole profile pass. -/
theorem scrapePlayerProfile_pres (g : Player → String)
    (hB : ∀ p l v, g p ≠ "" → g (updateBio p l v) = g p)
    (hT : ∀ p l v, g p ≠ "" → g (updateBioTable p l v) = g p) :
    ∀ (env : ScrapeEnv) (p : Player), g p ≠ "" → g (scrapePlayerProfile env p) = g p := by
  have hps : ∀ (upd : Player → String → String → Player),
      (∀ p l v, g p ≠ "" → g (upd p l v) = g p) →
      ∀ p l v, g p ≠ "" → g (profileStep upd p l v) = g p := by
    intro upd hupd p l v h
    simp only [profileStep]
    split_ifs
    · rfl
    · exact hupd p _ _ h
  have hbio : ∀ p it, g p ≠ "" → g (bioStep p it) = g p := by
    intro p it h
    rw [bioStep]
    cases it.label <;> cases it.value <;> first | rfl | exact hps _ hB p _ _ h
  have hdl : ∀ p (lv : String × String), g p ≠ "" → g (dlStep p lv) = g p := by
    intro p lv h
    exact hps _ hB p _ _ h
  have htr : ∀ p row, g p ≠ "" → g (tableRowStep p row) = g p := by
    intro p row h
    rw [tableRowStep]
    cases hc : row.cells with
    | nil => rfl
    | cons c0 tl =>
      cases tl with
      | nil => rfl
      | cons c1 tl2 => exact hps _ hT p _ _ h
  have hts : ∀ p rows, g p ≠ "" → g (tableStep p rows) = g p := by
    intro p rows h
    exact foldl_pres tableRowStep g htr rows p h
  have hb : ∀ page p, g p ≠ "" → g (bioStage page p) = g p := by
    intro page p h
    rw [bioStage]
    cases page.bioDiv with
    | some items => exact foldl_pres bioStep g hbio items p h
    | none => rfl
  have hd : ∀ page p, g p ≠ "" → g (dlStage page p) = g p := by
    intro page p h
    rw [dlStage]
    cases page.dl with
    | some dl => exact foldl_pres dlStep g hdl _ p h
    | none => rfl
  have ht : ∀ page p, g p ≠ "" → g (tablesStage page p) = g p := by
    intro page p h
    exact foldl_pres tableStep g hts page.detailTables p h
  intro env p h
  rw [scrapePlayerProfile]
  split_ifs
  · rfl
  · cases hf : env.profFetch p.url with
    | none => rfl
    | some page =>
      show g (scrapeProfileWith page p) = g p
      rw [scrapeProfileWith]
      have h1 := hb page p h
      have h2 := hd page (bioStage page p) (by rw [h1]; exact h)
      have h3 := ht page (dlStage page (bioStage page p)) (by rw [h2, h1]; exact h)
      rw [h3, h2, h1]

theorem updateRowBio_pres (r : CsvRow) (l v : String) :
    (updateRowBio r l v).url = r.url ∧
    (updateRowBio r l v).name = r.name ∧
    (updateRowBio r l v).team = r.team ∧
    (r.position ≠ "" → (updateRowBio r l v).position = r.position) ∧
    (r.height ≠ "" → (updateRowBio r l v).height = r.height) ∧
    (r.classYear ≠ "" → (updateRowBio r l v).classYear = r.classYear) ∧
    (r.major ≠ "" → (updateRowBio r l v).major = r.major) ∧
    (r.hometown ≠ "" → (updateRowBio r l v).hometown = r.hometown) ∧
    (r.highSchool ≠ "" → (updateRowBio r l v).highSchool = r.highSchool) ∧
    (r.previousSchool ≠ "" → (updateRowBio r l v).previousSchool = r.previousSchool) := by
  unfold updateRowBio
  split_ifs <;> simp_all

theorem updateRowTable_pres (r : CsvRow) (l v : String) :
    (updateRowTable r l v).url = r.url ∧
    (updateRowTable r l v).name = r.name ∧
    (updateRowTable r l v).team = r.team ∧
    (r.position ≠ "" → (updateRowTable r l v).position = r.position) ∧
    (r.height ≠ "" → (updateRowTable r l v).height = r.height) ∧
    (r.classYear ≠ "" → (updateRowTable r l v).classYear = r.classYear) ∧
    (r.major ≠ "" → (updateRowTable r l v).major = r.major) ∧
    (r.hometown ≠ "" → (updateRowTable r l v).hometown = r.hometown) ∧
    (r.highSchool ≠ "" → (updateRowTable r l v).highSchool = r.highSchool) ∧
    (r.previousSchool ≠ "" → (updateRowTable r l v).previousSchool = r.previousSchool) := by
  unfold updateRowTable
  split_ifs <;> simp_all

/-- Enhancer analogue of `scrapePlayerProfile_pres`, over the first
component (the returned row) of `enhancerScrapeProfile`. -/
theorem enhancerScrapeProfile_pres (g : CsvRow → String)
    (hB : ∀ r l v, g r ≠ "" → g (updateRowBio r l v) = g r)
    (hT : ∀ r l v, g r ≠ "" → g (updateRowTable r l v) = g r) :
    ∀ (force : Bool) (fetch : String → Option ProfilePage) (r : CsvRow),
      g r ≠ "" → g (enhancerScrapeProfile force fetch r).1 = g r := by
  have hps : ∀ (upd : CsvRow → String → String → CsvRow),
      (∀ r l v, g r ≠ "" → g (upd r l v) = g r) →
      ∀ r l v, g r ≠ "" → g (rowStep upd r l v) = g r := by
    intro upd hupd r l v h
    simp only [rowStep]
    split_ifs
    · rfl
    · exact hupd r _ _ h
  have hbio : ∀ r it, g r ≠ "" → g (rowBioStep r it) = g r := by
    intro r it h
    rw [rowBioStep]
    cases it.label <;> cases it.value <;> first | rfl | exact hps _ hB r _ _ h
  have hdl : ∀ r (lv : String × String), g r ≠ "" → g (rowDlStep r lv) = g r := by
    intro r lv h
    exact hps _ hB r _ _ h
  have htr : ∀ r row, g r ≠ "" → g (rowTableRowStep r row) = g r := by
    intro r row h
    rw [rowTableRowStep]
    cases hc : row.cells with
    | nil => rfl
    | cons c0 tl =>
      cases tl with
      | nil => rfl
      | cons c1 tl2 => exact hps _ hT r _ _ h
  have hts : ∀ r rows, g r ≠ "" → g (rowTableStep r rows) = g r := by
    intro r rows h
    exact foldl_pres rowTableRowStep g htr rows r h
  have hb : ∀ page r, g r ≠ "" → g (rowBioStage page r) = g r := by
    intro page r h
    rw [rowBioStage]
    cases page.bioDiv with
    | some items => exact foldl_pres rowBioStep g hbio items r h
    | none => rfl
  have hd : ∀ page r, g r ≠ "" → g (rowDlStage page r) = g r := by
    intro page r h
    rw [rowDlStage]
    cases page.dl with
    | some dl => exact foldl_pres rowDlStep g hdl _ r h
    | none => rfl
  have ht : ∀ page r, g r ≠ "" → g (rowTablesStage page r) = g r := by
    intro page r h
    exact foldl_pres rowTableStep g hts page.detailTables r h
  intro force fetch r h
  rw [enhancerScrapeProfile]
  split_ifs
  · rfl
  · rfl
  · cases hf : fetch (strip r.url) with
    | none => rfl
    | some page =>
      show g (enhanceWith page r) = g r
      rw [enhanceWith]
      have h1 := hb page r h
      have h2 := hd page (rowBioStage page r) (by rw [h1]; exact h)
      have h3 := ht page (rowDlStage page (rowBioStage page r)) (by rw [h2, h1]; exact h)
      rw [h3, h2, h1]

/-- Claim C1: write-once-if-empty — for every record field other than the
team identifier and the season, once the field holds a non-empty value, no
later extraction step overwrites it.  The only extraction steps applied to
an existing record are the profile passes (`_scrape_player_profile` in the
scraper and `scrape_player_profile` in the enhancement tool); both leave
every non-empty field unchanged, so in particular a record whose position
is already "D" keeps "D" through any subsequent extractor pass even if the
profile page carries a position-labelled field with value "Forward". -/
theorem claim_C1_write_once_if_empty :
    (∀ (env : ScrapeEnv) (p : Player),
      (p.team ≠ "" → (scrapePlayerProfile env p).team = p.team) ∧
      (p.division ≠ "" → (scrapePlayerProfile env p).division = p.division) ∧
      (p.name ≠ "" → (scrapePlayerProfile env p).name = p.name) ∧
      (p.jersey ≠ "" → (scrapePlayerProfile env p).jersey = p.jersey) ∧
      (p.url ≠ "" → (scrapePlayerProfile env p).url = p.url) ∧
      (p.position ≠ "" → (scrapePlayerProfile env p).position = p.position) ∧
      (p.height ≠ "" → (scrapePlayerProfile env p).height = p.height) ∧
      (p.year ≠ "" → (scrapePlayerProfile env p).year = p.year) ∧
      (p.major ≠ "" → (scrapePlayerProfile env p).major = p.major) ∧
      (p.hometown ≠ "" → (scrapePlayerProfile env p).hometown = p.hometown) ∧
      (p.highSchool ≠ "" → (scrapePlayerProfile env p).highSchool = p.highSchool) ∧
      (p.previousSchool ≠ "" → (scrapePlayerProfile env p).previousSchool = p.previousSchool) ∧
      True) ∧
    (∀ (force : Bool) (fetch : String → Option ProfilePage) (r : CsvRow),
      (r.url ≠ "" → (enhancerScrapeProfile force fetch r).1.url = r.url) ∧
      (r.name ≠ "" → (enhancerScrapeProfile force fetch r).1.name = r.name) ∧
      (r.team ≠ "" → (enhancerScrapeProfile force fetch r).1.team = r.team) ∧
      (r.position ≠ "" → (enhancerScrapeProfile force fetch r).1.position = r.position) ∧
      (r.height ≠ "" → (enhancerScrapeProfile force fetch r).1.height = r.height) ∧
      (r.classYear ≠ "" → (enhancerScrapeProfile force fetch r).1.classYear = r.classYear) ∧
      (r.major ≠ "" → (enhancerScrapeProfile force fetch r).1.major = r.major) ∧
      (r.hometown ≠ "" → (enhancerScrapeProfile force fetch r).1.hometown = r.hometown) ∧
      (r.highSchool ≠ "" → (enhancerScrapeProfile force fetch r).1.highSchool = r.highSchool) ∧
      (r.previousSchool ≠ "" → (enhancerScrapeProfile force fetch r).1.previousSchool = r.previousSchool) ∧
      True) := by
  constructor
  · intro env p
    refine ⟨?_, ?_, ?_, ?_, ?_, ?_, ?_, ?_, ?_, ?_, ?_, ?_, ?_⟩
    · exact fun h => scrapePlayerProfile_pres (fun q => q.team)
        (fun p l v _ => (updateBio_pres p l v).1)
        (fun p l v _ => (updateBioTable_pres p l v).1) env p h
    · exact fun h => scrapePlayerProfile_pres (fun q => q.division)
        (fun p l v _ => (updateBio_pres p l v).2.1)
        (fun p l v _ => (updateBioTable_pres p l v).2.1) env p h
    · exact fun h => scrapePlayerProfile_pres (fun q => q.name)
        (fun p l v _ => (updateBio_pres p l v).2.2.1)
        (fun p l v _ => (updateBioTable_pres p l v).2.2.1) env p h
    · exact fun h => scrapePlayerProfile_pres (fun q => q.jersey)
        (fun p l v _ => (updateBio_pres p l v).2.2.2.1)
        (fun p l v _ => (updateBioTable_pres p l v).2.2.2.1) env p h
    · exact fun h => scrapePlayerProfile_pres (fun q => q.url)
        (fun p l v _ => (updateBio_pres p l v).2.2.2.2.1)
        (fun p l v _ => (updateBioTable_pres p l v).2.2.2.2.1) env p h
    · exact fun h => scrapePlayerProfile_pres (fun q => q.position)
        (fun p l v hh => (updateBio_pres p l v).2.2.2.2.2.1 hh)
        (fun p l v hh => (updateBioTable_pres p l v).2.2.2.2.2.1 hh) env p h
    · exact fun h => scrapePlayerProfile_pres (fun q => q.height)
        (fun p l v hh => (updateBio_pres p l v).2.2.2.2.2.2.1 hh)
        (fun p l v hh => (updateBioTable_pres p l v).2.2.2.2.2.2.1 hh) env p h
    · exact fun h => scrapePlayerProfile_pres (fun q => q.year)
        (fun p l v hh => (updateBio_pres p l v).2.2.2.2.2.2.2.1 hh)
        (fun p l v hh => (updateBioTable_pres p l v).2.2.2.2.2.2.2.1 hh) env p h
    · exact fun h => scrapePlayerProfile_pres (fun q => q.major)
        (fun p l v hh => (updateBio_pres p l v).2.2.2.2.2.2.2.2.1 hh)
        (fun p l v hh => (updateBioTable_pres p l v).2.2.2.2.2.2.2.2.1 hh) env p h
    · exact fun h => scrapePlayerProfile_pres (fun q => q.hometown)
        (fun p l v hh => (updateBio_pres p l v).2.2.2.2.2.2.2.2.2.1 hh)
        (fun p l v hh => (updateBioTable_pres p l v).2.2.2.2.2.2.2.2.2.1 hh) env p h
    · exact fun h => scrapePlayerProfile_pres (fun q => q.highSchool)
        (fun p l v hh => (updateBio_pres p l v).2.2.2.2.2.2.2.2.2.2.1 hh)
        (fun p l v hh => (updateBioTable_pres p l v).2.2.2.2.2.2.2.2.2.2.1 hh) env p h
    · exact fun h => scrapePlayerProfile_pres (fun q => q.previousSchool)
        (fun p l v hh => (updateBio_pres p l v).2.2.2.2.2.2.2.2.2.2.2 hh)
        (fun p l v hh => (updateBioTable_pres p l v).2.2.2.2.2.2.2.2.2.2.2 hh) env p h
    · trivial
  · intro force fetch r
    refine ⟨?_, ?_, ?_, ?_, ?_, ?_, ?_, ?_, ?_, ?_, ?_⟩
    · exact fun h => enhancerScrapeProfile_pres (fun q => q.url)
        (fun r l v _ => (updateRowBio_pres r l v).1)
        (fun r l v _ => (updateRowTable_pres r l v).1) force fetch r h
    · exact fun h => enhancerScrapeProfile_pres (fun q => q.name)
        (fun r l v _ => (updateRowBio_pres r l v).2.1)
        (fun r l v _ => (updateRowTable_pres r l v).2.1) force fetch r h
    · exact fun h => enhancerScrapeProfile_pres (fun q => q.team)
        (fun r l v _ => (updateRowBio_pres r l v).2.2.1)
        (fun r l v _ => (updateRowTable_pres r l v).2.2.1) force fetch r h
    · exact fun h => enhancerScrapeProfile_pres (fun q => q.position)
        (fun r l v hh => (updateRowBio_pres r l v).2.2.2.1 hh)
        (fun r l v hh => (updateRowTable_pres r l v).2.2.2.1 hh) force fetch r h
    · exact fun h => enhancerScrapeProfile_pres (fun q => q.height)
        (fun r l v hh => (updateRowBio_pres r l v).2.2.2.2.1 hh)
        (fun r l v hh => (updateRowTable_pres r l v).2.2.2.2.1 hh) force fetch r h
    · exact fun h => enhancerScrapeProfile_pres (fun q => q.classYear)
        (fun r l v hh => (updateRowBio_pres r l v).2.2.2.2.2.1 hh)
        (fun r l v hh => (updateRowTable_pres r l v).2.2.2.2.2.1 hh) force fetch r h
    · exact fun h => enhancerScrapeProfile_pres (fun q => q.major)
        (fun r l v hh => (updateRowBio_pres r l v).2.2.2.2.2.2.1 hh)
        (fun r l v hh => (updateRowTable_pres r l v).2.2.2.2.2.2.1 hh) force fetch r h
    · exact fun h => enhancerScrapeProfile_pres (fun q => q.hometown)
        (fun r l v hh => (updateRowBio_pres r l v).2.2.2.2.2.2.2.1 hh)
        (fun r l v hh => (updateRowTable_pres r l v).2.2.2.2.2.2.2.1 hh) force fetch r h
    · exact fun h => enhancerScrapeProfile_pres (fun q => q.highSchool)
        (fun r l v hh => (updateRowBio_pres r l v).2.2.2.2.2.2.2.2.1 hh)
        (fun r l v hh => (updateRowTable_pres r l v).2.2.2.2.2.2.2.2.1 hh) force fetch r h
    · exact fun h => enhancerScrapeProfile_pres (fun q => q.previousSchool)
        (fun r l v hh => (updateRowBio_pres r l v).2.2.2.2.2.2.2.2.2 hh)
        (fun r l v hh => (updateRowTable_pres r l v).2.2.2.2.2.2.2.2.2 hh) force fetch r h
    · trivial

/-- A concrete profile page carrying a position-labelled field with value
"Forward", used to witness claim C1. -/
def envC1 : ScrapeEnv :=
  { fetch := fun _ => (404, {}),
    profFetch := fun _ =>
      some { bioDiv := some [{ label := some "Position", value := some "Forward" }] },
    scrapeProfiles := true,
    domainOf := fun _ => "example.com" }

/-- A record whose position already holds "D", used to witness claim C1. -/
def pC1 : Player :=
  { teamId := 1, team := "T", season := "2025", position := "D",
    url := "https://example.com/p" }

/-- Witness for claim C1: a record with position "D" keeps "D" through the
profile pass even though the fetched page labels "Forward" as position. -/
theorem claim_C1_witness : (scrapePlayerProfile envC1 pC1).position = "D" :=
  (claim_C1_write_once_if_empty.1 envC1 pC1).2.2.2.2.2.1 (by decide)

/-!  ## Position range closure over the whole pipeline (claim C2) -/

/-- The canonical position range: a code or empty. -/
def PosOK (x : String) : Prop :=
  x = "GK" ∨ x = "D" ∨ x = "M" ∨ x = "F" ∨ x = ""

theorem updateBio_posOK (p : Player) (l v : String) (h : PosOK p.position) :
    PosOK (updateBio p l v).position := by
  unfold updateBio
  split_ifs <;> first | exact extract_position_range v | exact h

theorem updateBioTable_posOK (p : Player) (l v : String) (h : PosOK p.position) :
    PosOK (updateBioTable p l v).position := by
  unfold updateBioTable
  split_ifs <;> first | exact extract_position_range v | exact h

theorem stepMeta_posOK (acc : ItemAcc) (mf : MetaField) (h : PosOK acc.position) :
    PosOK (stepMeta acc mf).position := by
  cases mf with
  | mk lab val =>
    cases lab with
    | none => cases val <;> exact h
    | some l =>
      cases val with
      | none => exact h
      | some v =>
        simp only [stepMeta]
        split_ifs <;> first | exact extract_position_range _ | exact h

theorem scrapePlayerProfile_posOK (env : ScrapeEnv) (p : Player)
    (h : PosOK p.position) : PosOK (scrapePlayerProfile env p).position := by
  have hps : ∀ (upd : Player → String → String → Player),
      (∀ p l v, PosOK p.position → PosOK (upd p l v).position) →
      ∀ p l v, PosOK p.position → PosOK (profileStep upd p l v).position := by
    intro upd hupd p l v h
    simp only [profileStep]
    split_ifs
    · exact h
    · exact hupd p _ _ h
  have hbio : ∀ p it, PosOK p.position → PosOK (bioStep p it).position := by
    intro p it h
    rw [bioStep]
    cases it.label <;> cases it.value <;>
      first | exact h | exact hps _ updateBio_posOK p _ _ h
  have htr : ∀ p row, PosOK p.position → PosOK (tableRowStep p row).position := by
    intro p row h
    rw [tableRowStep]
    cases hc : row.cells with
    | nil => exact h
    | cons c0 tl =>
      cases tl with
      | nil => exact h
      | cons c1 tl2 => exact hps _ updateBioTable_posOK p _ _ h
  have hb : ∀ page p, PosOK p.position → PosOK (bioStage page p).position := by
    intro page p h
    rw [bioStage]
    cases page.bioDiv with
    | some items =>
      exact foldl_inv bioStep (fun q => PosOK q.position) hbio items p h
    | none => exact h
  have hd : ∀ page p, PosOK p.position → PosOK (dlStage page p).position := by
    intro page p h
    rw [dlStage]
    cases page.dl with
    | some dl =>
      exact foldl_inv dlStep (fun q => PosOK q.position)
        (fun p lv h => hps _ updateBio_posOK p _ _ h) _ p h
    | none => exact h
  have ht : ∀ page p, PosOK p.position → PosOK (tablesStage page p).position := by
    intro page p h
    exact foldl_inv tableStep (fun q => PosOK q.position)
      (fun p rows h => foldl_inv tableRowStep (fun q => PosOK q.position) htr rows p h)
      page.detailTables p h
  rw [scrapePlayerProfile]
  split_ifs
  · exact h
  · cases hf : env.profFetch p.url with
    | none => exact h
    | some page =>
      show PosOK (scrapeProfileWith page p).position
      rw [scrapeProfileWith]
      exact ht page _ (hd page _ (hb page p h))

theorem itemToPlayer_posOK (env : ScrapeEnv) (tid : Int)
    (team season division domain : String) (item : RosterItem) :
    PosOK (itemToPlayer env tid team season division domain item).position := by
  have hacc : PosOK ((item.metaFields.foldl stepMeta {}).position) :=
    foldl_inv stepMeta (fun a => PosOK a.position) stepMeta_posOK item.metaFields {}
      (Or.inr (Or.inr (Or.inr (Or.inr rfl))))
  simp only [itemToPlayer]
  split_ifs
  · exact scrapePlayerProfile_posOK env _ hacc
  · exact hacc

theorem rowToPlayer_posOK (env : ScrapeEnv) (tid : Int)
    (team season division domain : String) (idx : ColIdx) (row : HRow) :
    PosOK (rowToPlayer env tid team season division domain idx row).position := by
  have hpos : PosOK (match getCell row.cells idx.posIdx with
      | some cell => extract_position (clean_text cell.text)
      | none => "") := by
    cases getCell row.cells idx.posIdx with
    | some cell => exact extract_position_range _
    | none => exact Or.inr (Or.inr (Or.inr (Or.inr rfl)))
  simp only [rowToPlayer]
  split_ifs
  · exact scrapePlayerProfile_posOK env _ hpos
  · exact hpos

/-- The append-if fold of the table row loop rewritten as filter+map. -/
theorem foldl_skip_eq {α β : Type} (f : β → α) (pred : β → Prop) [DecidablePred pred] :
    ∀ (l : List β) (acc : List α),
      l.foldl (fun a r => if pred r then a else a ++ [f r]) acc =
        acc ++ (l.filter (fun r => decide (¬ pred r))).map f := by
  intro l
  induction l with
  | nil => intro acc; simp
  | cons b bs ih =>
    intro acc
    rw [List.foldl_cons, List.filter_cons]
    by_cases hb : pred b
    · rw [if_pos hb, ih]
      simp [hb]
    · rw [if_neg hb, ih]
      simp [hb]

theorem tableRowsToPlayers_eq (env : ScrapeEnv) (tid : Int)
    (team season division domain : String) (idx : ColIdx) (rows : List HRow) :
    tableRowsToPlayers env tid team season division domain idx rows =
      (rows.filter (fun r => decide (¬ r.cells.length < 2))).map
        (rowToPlayer env tid team season division domain idx) := by
  rw [tableRowsToPlayers,
    foldl_skip_eq (rowToPlayer env tid team season division domain idx)
      (fun r => r.cells.length < 2) rows []]
  rfl

theorem extractFromTable_posOK (env : ScrapeEnv) (tid : Int)
    (team season division base : String) (page : Page) (q : Player)
    (hq : q ∈ extractFromTable env tid team season division base page) :
    PosOK q.position := by
  rw [extractFromTable] at hq
  cases hct : chosenTable page with
  | none => simp only [hct] at hq; simp at hq
  | some table =>
    simp only [hct] at hq
    cases hhc : tableHeaderCells table with
    | none => simp only [hhc] at hq; simp at hq
    | some hcells =>
      simp only [hhc] at hq
      rw [tableRowsToPlayers_eq] at hq
      obtain ⟨row, _, rfl⟩ := List.mem_map.mp hq
      exact rowToPlayer_posOK env tid team season division _ _ row

theorem extractPlayers_posOK (env : ScrapeEnv) (tid : Int)
    (team season division base : String) (page : Page) (q : Player)
    (hq : q ∈ extractPlayers env tid team season division base page) :
    PosOK q.position := by
  rw [extractPlayers] at hq
  split_ifs at hq
  · exact extractFromTable_posOK env tid team season division base page q hq
  · obtain ⟨item, _, rfl⟩ := List.mem_map.mp hq
    exact itemToPlayer_posOK env tid team season division _ item

/-- Claim C2: `extract_position` is case-insensitive, maps each token of
its declared set to its canonical code (word-boundary token matches are
tried before the substring fallback), returns empty on no match, and
consequently always yields a value in {GK, D, M, F} or empty — and no
other raw value is ever stored in an extracted record's position field,
whether the record is built by the item-list shape, the table shape, or
the profile pass. -/
theorem claim_C2_extract_position :
    (∀ s : String, extract_position (toUpperStr s) = extract_position s ∧
       extract_position (toLowerStr s) = extract_position s) ∧
    extract_position "goalie" = "GK" ∧
    extract_position "GOALIE" = "GK" ∧
    ((["GK", "G", "GOALKEEPER", "GOALIE"].all fun t => extract_position t == "GK") = true) ∧
    ((["D", "DEF", "DEFENSE", "DEFENDER", "B", "BACK"].all
        fun t => extract_position t == "D") = true) ∧
    ((["M", "MF", "MID", "MIDFIELDER", "MIDFIELD"].all
        fun t => extract_position t == "M") = true) ∧
    ((["F", "FW", "FOR", "FORWARD", "A", "ATT", "ATTACK", "ATTACKER", "O", "OFFENSE"].all
        fun t => extract_position t == "F") = true) ∧
    (∀ s : String, extract_position s = "GK" ∨ extract_position s = "D" ∨
       extract_position s = "M" ∨ extract_position s = "F" ∨ extract_position s = "") ∧
    (∀ (env : ScrapeEnv) (tid : Int) (team season division base : String)
       (page : Page) (q : Player),
       q ∈ extractPlayers env tid team season division base page →
       q.position = "GK" ∨ q.position = "D" ∨ q.position = "M" ∨
       q.position = "F" ∨ q.position = "") :=
  ⟨extract_position_case, by decide, by decide, by decide, by decide, by decide, by decide,
   extract_position_range, extractPlayers_posOK⟩

/-- A page whose only roster item labels "goalie" as position, used to
witness claim C2's record-closure conjunct. -/
def pgC2 : Page :=
  { rosterItems := [ { nameElem := some { text := "Jane Doe" },
                       metaFields := [ { label := some "Position",
                                         value := some "goalie" } ] } ] }

/-- A scraper environment with profile scraping off, used by witnesses. -/
def envPlain : ScrapeEnv :=
  { fetch := fun _ => (404, {}), profFetch := fun _ => none,
    scrapeProfiles := false, domainOf := fun _ => "example.com" }

/-- Witness for claim C2: the record extracted from `pgC2` has its
position in the canonical range (it is in fact "GK"). -/
theorem claim_C2_witness :
    ∀ q ∈ extractPlayers envPlain 1 "T" "2025" "" "https://example.com" pgC2,
      q.position = "GK" ∨ q.position = "D" ∨ q.position = "M" ∨
      q.position = "F" ∨ q.position = "" :=
  fun q hq =>
    claim_C2_extract_position.2.2.2.2.2.2.2.2 envPlain 1 "T" "2025" "" "https://example.com"
      pgC2 q hq

/-!  ## Table fallback shape (claim C3) -/

/-- Claim C3 (amended): with zero item-list containers, extraction falls
back to the table shape; that shape yields nothing without a table or a
header, and otherwise builds exactly one record per row *after the first
body row* that has at least two cells.  (The skipped first body row is the
header row when header and data share one row sequence; when the header
sits in a separate `thead`, the first data row is skipped as well.) -/
theorem claim_C3_table_fallback :
    ∀ (env : ScrapeEnv) (tid : Int) (team season division base : String) (page : Page),
      page.rosterItems = [] →
      (extractPlayers env tid team season division base page =
        extractFromTable env tid team season division base page) ∧
      (chosenTable page = none →
        extractPlayers env tid team season division base page = []) ∧
      (∀ t : HTable, chosenTable page = some t → tableHeaderCells t = none →
        extractPlayers env tid team season division base page = []) ∧
      (∀ (t : HTable) (hcells : List Cell),
        chosenTable page = some t → tableHeaderCells t = some hcells →
        extractPlayers env tid team season division base page =
          (((tableBodyRows t).drop 1).filter (fun r => decide (¬ r.cells.length < 2))).map
            (rowToPlayer env tid team season division (env.domainOf base)
              (mkColIdx (hcells.map fun c => toLowerStr (clean_text c.text)))) ∧
        (extractPlayers env tid team season division base page).length =
          (((tableBodyRows t).drop 1).filter
            (fun r => decide (¬ r.cells.length < 2))).length) := by
  intro env tid team season division base page hempty
  have hext : extractPlayers env tid team season division base page =
      extractFromTable env tid team season division base page := by
    rw [extractPlayers, if_pos (by simp [hempty])]
  refine ⟨hext, ?_, ?_, ?_⟩
  · intro hct
    rw [hext, extractFromTable]
    simp only [hct]
  · intro t hct hhc
    rw [hext, extractFromTable]
    simp only [hct, hhc]
  · intro t hcells hct hhc
    have heq : extractPlayers env tid team season division base page =
        (((tableBodyRows t).drop 1).filter (fun r => decide (¬ r.cells.length < 2))).map
          (rowToPlayer env tid team season division (env.domainOf base)
            (mkColIdx (hcells.map fun c => toLowerStr (clean_text c.text)))) := by
      rw [hext, extractFromTable]
      simp only [hct, hhc]
      exact tableRowsToPlayers_eq env tid team season division (env.domainOf base) _ _
    exact ⟨heq, by rw [heq, List.length_map]⟩

/-- A roster table whose header sits in a `thead` and whose two data rows
(each with two cells) sit in the `tbody`. -/
def tblC3 : HTable :=
  { thead := some [ { cells := [{ text := "Name" }, { text := "Pos" }] } ],
    tbody := some [ { cells := [{ text := "Amy Adams" }, { text := "Goalkeeper" }] },
                    { cells := [{ text := "Beth Brown" }, { text := "Forward" }] } ] }

/-- A page with zero item-list containers whose only table is `tblC3`. -/
def pgC3 : Page := { rosterItems := [], tableSidearm := some tblC3 }

/-- Claim C3, counterexample: the page has two body rows with two cells
each and a separate `thead` header, yet only one record is built — the
first data row is silently skipped, contradicting "every remaining row
with at least 2 cells yields a record". -/
theorem claim_C3_counterexample :
    (tableBodyRows tblC3).length = 2 ∧
    (∀ r ∈ tableBodyRows tblC3, 2 ≤ r.cells.length) ∧
    extractPlayers envPlain 1 "T" "2025" "" "https://example.com" pgC3 =
      [{ teamId := 1, team := "T", season := "2025", name := "Beth Brown",
         position := "F" }] ∧
    (extractPlayers envPlain 1 "T" "2025" "" "https://example.com" pgC3).length = 1 ∧
    ¬ (extractPlayers envPlain 1 "T" "2025" "" "https://example.com" pgC3).length =
        (tableBodyRows tblC3).length := by
  refine ⟨by decide, by decide, by decide, by decide, by decide⟩

/-- Witness for claim C3 (amended), instantiated at the concrete page
`pgC3`: the extraction equals one record per post-first body row. -/
theorem claim_C3_witness :
    extractPlayers envPlain 1 "T" "2025" "" "https://example.com" pgC3 =
      (((tableBodyRows tblC3).drop 1).filter (fun r => decide (¬ r.cells.length < 2))).map
        (rowToPlayer envPlain 1 "T" "2025" ""
          (envPlain.domainOf "https://example.com")
          (mkColIdx ((tableHeaderCells tblC3).getD [] |>.map
            fun c => toLowerStr (clean_text c.text))) ) :=
  ((claim_C3_table_fallback envPlain 1 "T" "2025" "" "https://example.com" pgC3
      rfl).2.2.2 tblC3 ((tableHeaderCells tblC3).getD []) rfl rfl).1

/-!  ## Roster-fetch retry chain (claim C4) -/

/-- Claim C4: the roster URL is `{base}/roster/{season}` for every
resolved format; a 404 triggers one retry against `{base}/roster`, then
one against `{base}/roster.aspx`; the first 200 response wins and its
parsed body is the page source handed to extraction; if all three
attempts fail the team yields zero records (the model is total — the
source's `try/except` turns any request error into an empty list, a
page-level failure rather than a fatal one). -/
theorem claim_C4_retry_chain :
    ∀ (env : ScrapeEnv) (tid : Int) (teamName baseUrl season division : String),
      build_roster_url baseUrl season (get_url_format tid baseUrl) =
        rstripSlash baseUrl ++ "/roster/" ++ season ∧
      ((env.fetch (build_roster_url baseUrl season (get_url_format tid baseUrl))).1 = 200 →
        scrapeTeam env tid teamName baseUrl season division =
          extractPlayers env tid teamName season division baseUrl
            (env.fetch (build_roster_url baseUrl season (get_url_format tid baseUrl))).2) ∧
      ((env.fetch (build_roster_url baseUrl season (get_url_format tid baseUrl))).1 = 404 →
        (env.fetch (rstripSlash baseUrl ++ "/roster")).1 = 200 →
        scrapeTeam env tid teamName baseUrl season division =
          extractPlayers env tid teamName season division baseUrl
            (env.fetch (rstripSlash baseUrl ++ "/roster")).2) ∧
      ((env.fetch (build_roster_url baseUrl season (get_url_format tid baseUrl))).1 = 404 →
        ¬ (env.fetch (rstripSlash baseUrl ++ "/roster")).1 = 200 →
        (env.fetch (rstripSlash baseUrl ++ "/roster.aspx")).1 = 200 →
        scrapeTeam env tid teamName baseUrl season division =
          extractPlayers env tid teamName season division baseUrl
            (env.fetch (rstripSlash baseUrl ++ "/roster.aspx")).2) ∧
      ((env.fetch (build_roster_url baseUrl season (get_url_format tid baseUrl))).1 = 404 →
        ¬ (env.fetch (rstripSlash baseUrl ++ "/roster")).1 = 200 →
        ¬ (env.fetch (rstripSlash baseUrl ++ "/roster.aspx")).1 = 200 →
        scrapeTeam env tid teamName baseUrl season division = []) ∧
      (¬ (env.fetch (build_roster_url baseUrl season (get_url_format tid baseUrl))).1 = 200 →
        ¬ (env.fetch (build_roster_url baseUrl season (get_url_format tid baseUrl))).1 = 404 →
        scrapeTeam env tid teamName baseUrl season division = []) := by
  intro env tid teamName baseUrl season division
  refine ⟨?_, ?_, ?_, ?_, ?_, ?_⟩
  · rw [build_roster_url]
    split_ifs <;> rfl
  · intro h200
    have h404 : ¬ (env.fetch (build_roster_url baseUrl season
        (get_url_format tid baseUrl))).1 = 404 := by rw [h200]; decide
    simp only [scrapeTeam, if_neg h404]
    rw [if_neg (by rw [h200]; decide)]
  · intro h404 h200
    simp only [scrapeTeam, if_pos h404, if_pos h200]
    rw [if_neg (by rw [h200]; decide)]
  · intro h404 hn200 h200
    simp only [scrapeTeam, if_pos h404, if_neg hn200]
    rw [if_neg (by rw [h200]; decide)]
  · intro h404 hn2 hn3
    simp only [scrapeTeam, if_pos h404, if_neg hn2]
    rw [if_pos hn3]
  · intro hn200 hn404
    simp only [scrapeTeam, if_neg hn404]
    rw [if_pos hn200]

/-- A page used as the `roster.aspx` body in the C4 witness. -/
def pgC4 : Page :=
  { rosterItems := [ { nameElem := some { text := "Cara Cole" } } ] }

/-- A transport oracle: 404 on the season URL and on `/roster`, 200 with
`pgC4` on `/roster.aspx`. -/
def envC4 : ScrapeEnv :=
  { fetch := fun u =>
      if u = "https://example.com/sports/field-hockey/roster.aspx" then (200, pgC4)
      else (404, {}),
    profFetch := fun _ => none,
    scrapeProfiles := false,
    domainOf := fun _ => "example.com" }

/-- Witness for claim C4: with 404, 404, 200 the `.aspx` body is the page
source used for extraction. -/
theorem claim_C4_witness :
    scrapeTeam envC4 7 "T" "https://example.com/sports/field-hockey" "2025" "" =
      extractPlayers envC4 7 "T" "2025" "" "https://example.com/sports/field-hockey"
        (envC4.fetch
          (rstripSlash "https://example.com/sports/field-hockey" ++ "/roster.aspx")).2 :=
  (claim_C4_retry_chain envC4 7 "T" "https://example.com/sports/field-hockey"
      "2025" "").2.2.2.1 (by decide) (by decide) (by decide)

/-!  ## Orchestrator classification (claim C5) -/

/-- `RosterManager.scrape_teams` over any prefix state: each team appends
to exactly one report list, in input order, and all players of successful
teams accumulate. -/
theorem scrapeTeams_spec (runTeam : TeamEntry → Except String (List Player)) :
    ∀ (teams : List TeamEntry) (r : RunReport),
      teams.foldl (classifyTeam runTeam) r =
        { allPlayers := r.allPlayers ++
            (teams.map (fun t => match runTeam t with
              | .ok l => l
              | .error _ => [])).flatten,
          zeroTeams := r.zeroTeams ++ teams.filter (fun t =>
            match runTeam t with
            | .ok [] => true
            | _ => false),
          failedTeams := r.failedTeams ++ teams.filterMap (fun t =>
            match runTeam t with
            | .error e => some ⟨t.team, t.ncaaId, t.url, e⟩
            | .ok _ => none),
          successfulTeams := r.successfulTeams ++ teams.filterMap (fun t =>
            match runTeam t with
            | .ok [] => none
            | .ok l => some ⟨t.team, t.ncaaId, l.length⟩
            | .error _ => none) } := by
  intro teams
  induction teams with
  | nil => intro r; simp
  | cons t ts ih =>
    intro r
    rw [List.foldl_cons, ih]
    cases hr : runTeam t with
    | error e =>
      simp [classifyTeam, hr, List.filter_cons, List.filterMap_cons, List.map_cons]
    | ok players =>
      cases players with
      | nil =>
        simp [classifyTeam, hr, List.filter_cons, List.filterMap_cons, List.map_cons]
      | cons p ps =>
        simp [classifyTeam, hr, List.filter_cons, List.filterMap_cons, List.map_cons]

theorem classify_count (runTeam : TeamEntry → Except String (List Player)) :
    ∀ (teams : List TeamEntry),
      (teams.filter (fun t => match runTeam t with
        | .ok [] => true
        | _ => false)).length +
      (teams.filterMap (fun t => match runTeam t with
        | .error e => some (⟨t.team, t.ncaaId, t.url, e⟩ : FailedEntry)
        | .ok _ => none)).length +
      (teams.filterMap (fun t => match runTeam t with
        | .ok [] => none
        | .ok l => some (⟨t.team, t.ncaaId, l.length⟩ : SuccessEntry)
        | .error _ => none)).length = teams.length := by
  intro teams
  induction teams with
  | nil => rfl
  | cons t ts ih =>
    rw [List.filter_cons, List.filterMap_cons, List.filterMap_cons]
    cases hr : runTeam t with
    | error e =>
      simp [hr]
      omega
    | ok players =>
      cases players with
      | nil =>
        simp [hr]
        omega
      | cons p ps =>
        simp [hr]
        omega

/-- Claim C5: for every team in input order the orchestrator places the
team in exactly one of the three report lists — the zero-record list when
zero records were extracted, the failed list (capturing the error
message) when the team pass raised, and the successful list (with the
record count) otherwise; the three list lengths sum to the team count, so
one team's failure never prevents the processing of later teams. -/
theorem claim_C5_orchestrator :
    ∀ (runTeam : TeamEntry → Except String (List Player)) (teams : List TeamEntry),
      (scrapeTeams runTeam teams).zeroTeams =
        teams.filter (fun t => match runTeam t with
          | .ok [] => true
          | _ => false) ∧
      (scrapeTeams runTeam teams).failedTeams =
        teams.filterMap (fun t => match runTeam t with
          | .error e => some ⟨t.team, t.ncaaId, t.url, e⟩
          | .ok _ => none) ∧
      (scrapeTeams runTeam teams).successfulTeams =
        teams.filterMap (fun t => match runTeam t with
          | .ok [] => none
          | .ok l => some ⟨t.team, t.ncaaId, l.length⟩
          | .error _ => none) ∧
      (scrapeTeams runTeam teams).allPlayers =
        (teams.map (fun t => match runTeam t with
          | .ok l => l
          | .error _ => [])).flatten ∧
      (scrapeTeams runTeam teams).zeroTeams.length +
        (scrapeTeams runTeam teams).failedTeams.length +
        (scrapeTeams runTeam teams).successfulTeams.length = teams.length := by
  intro runTeam teams
  have h := scrapeTeams_spec runTeam teams {}
  have hz : scrapeTeams runTeam teams = teams.foldl (classifyTeam runTeam) {} := rfl
  rw [hz, h]
  refine ⟨by simp, by simp, by simp, by simp, ?_⟩
  simpa using classify_count runTeam teams

/-!  ## Empty / "-" values (claim C6) -/

/-- A page whose single roster item carries a Class field with the
literal "-" value. -/
def pgC6 : Page :=
  { rosterItems := [ { nameElem := some { text := "Jane Doe" },
                       metaFields := [ { label := some "Class",
                                         value := some "-" } ] } ] }

/-- Claim C6, counterexample: the top-level item-list shape has no
empty/"-" skip — a Class field whose value is the literal "-" is written
into the record's year field verbatim. -/
theorem claim_C6_counterexample :
    extractPlayers envPlain 1 "T" "2025" "" "https://example.com" pgC6 =
      [{ teamId := 1, team := "T", season := "2025", name := "Jane Doe",
         year := "-" }] ∧
    (extractPlayers envPlain 1 "T" "2025" "" "https://example.com" pgC6).map
      (fun q => q.year) = ["-"] ∧
    ¬ ∀ q ∈ extractPlayers envPlain 1 "T" "2025" "" "https://example.com" pgC6,
        ¬ q.year = "-" := by
  exact ⟨by decide, by decide, by decide⟩

/-- Claim C6 (amended): in the six detail-page shapes — the bio-div, dl
and detail-table loops of both the scraper's profile pass and the
standalone enhancement tool — a labelled field whose cleaned value is
empty or the literal "-" is skipped exactly like absent data; the
top-level item-list and table shapes have no such check. -/
theorem claim_C6_dash_skipped :
    (∀ (p : Player) (l v : String), clean_text v = "" ∨ clean_text v = "-" →
       profileStep updateBio p l v = p ∧ profileStep updateBioTable p l v = p) ∧
    (∀ (r : CsvRow) (l v : String), clean_text v = "" ∨ clean_text v = "-" →
       rowStep updateRowBio r l v = r ∧ rowStep updateRowTable r l v = r) := by
  constructor
  · intro p l v hv
    constructor <;>
      · simp only [profileStep]
        rw [if_pos (by rcases hv with h | h <;> simp [h])]
  · intro r l v hv
    constructor <;>
      · simp only [rowStep]
        rw [if_pos (by rcases hv with h | h <;> simp [h])]

/-- A record used to witness claim C6 (amended). -/
def pC6 : Player := { teamId := 2, team := "U", season := "2025" }

/-- Witness for claim C6 (amended): a position-labelled "-" value leaves
the record untouched in the profile pass. -/
theorem claim_C6_witness : profileStep updateBio pC6 "position" "-" = pC6 :=
  (claim_C6_dash_skipped.1 pC6 "position" "-" (Or.inr (by decide))).1

/-!  ## Enhancement trigger guard (claim C7) -/

/-- Claim C7: the standalone enhancement tool returns the row unchanged
and performs no fetch when the row's stripped URL is empty, and likewise
when the force flag is off and the row is already populated (any of
position, height, class, hometown non-empty); with the force flag on and
a non-empty URL, the fetch is always attempted. -/
theorem claim_C7_enhancement_guard :
    ∀ (force : Bool) (fetch : String → Option ProfilePage) (r : CsvRow),
      (strip r.url = "" → enhancerScrapeProfile force fetch r = (r, false)) ∧
      (force = false →
        (r.position ≠ "" ∨ r.height ≠ "" ∨ r.classYear ≠ "" ∨ r.hometown ≠ "") →
        enhancerScrapeProfile force fetch r = (r, false)) ∧
      (force = true → ¬ strip r.url = "" →
        (enhancerScrapeProfile force fetch r).2 = true) := by
  intro force fetch r
  refine ⟨?_, ?_, ?_⟩
  · intro hu
    rw [enhancerScrapeProfile, if_pos hu]
  · intro hforce hpop
    rw [enhancerScrapeProfile]
    by_cases hu : strip r.url = ""
    · rw [if_pos hu]
    · rw [if_neg hu, if_pos]
      subst hforce
      simp only [Bool.not_false, Bool.true_and]
      rcases hpop with h | h | h | h <;> simp [h]
  · intro hforce hu
    rw [enhancerScrapeProfile, if_neg hu, if_neg (by subst hforce; simp)]
    cases fetch (strip r.url) <;> rfl

/-- A populated row (non-empty height) with a profile URL, used to
witness claim C7. -/
def rowC7 : CsvRow := { url := "https://example.com/p", height := "5-6" }

/-- Witness for claim C7: with force off, the populated row is returned
unchanged and no fetch happens. -/
theorem claim_C7_witness :
    enhancerScrapeProfile false (fun _ => none) rowC7 = (rowC7, false) :=
  (claim_C7_enhancement_guard false (fun _ => none) rowC7).2.1 rfl
    (Or.inr (Or.inl (by decide)))

/-!  ## Season verification is advisory (claim C10) -/

/-- Claim C10: `verify_season_on_page` holds iff the season string, or
the range "{season-1}-{last two digits of season+1}", occurs in the page
text; and the record list `scrape_team` returns is independent of the
page text (hence of the verification result) — a season mismatch never
skips or alters the team's extraction. -/
theorem claim_C10_season_advisory :
    (∀ (pageText season : String),
      verify_season_on_page pageText season = true ↔
        (containsS pageText season = true ∨
         ∃ y : Int, season.toInt? = some y ∧
           containsS pageText (toString (y - 1) ++ "-" ++
             (⟨((toString (y + 1)).data.reverse.take 2).reverse⟩ : String)) = true)) ∧
    (∀ (env : ScrapeEnv) (tid : Int) (teamName baseUrl season division : String)
       (t' : String),
      scrapeTeam
        { env with fetch := fun u => ((env.fetch u).1, { (env.fetch u).2 with text := t' }) }
        tid teamName baseUrl season division =
      scrapeTeam env tid teamName baseUrl season division) := by
  constructor
  · intro pageText season
    by_cases hc : containsS pageText season = true
    · simp [verify_season_on_page, hc]
    · rw [verify_season_on_page, if_neg (by simp [hc])]
      cases ht : season.toInt? with
      | none =>
        simp [hc, ht]
      | some y =>
        constructor
        · intro h
          exact Or.inr ⟨y, rfl, h⟩
        · rintro (h | ⟨y', hy, h⟩)
          · exact absurd h hc
          · injection hy with hyy
            rw [← hyy] at h
            exact h
  · intro env tid teamName baseUrl season division t'
    simp only [scrapeTeam]
    split_ifs <;> rfl

end FHockey
